import Mathlib

/-!
# glslcc: reflection extraction, byte-array emission and output routing

A shallow embedding of `src/glslcc.cpp` and `src/sgs-file.h`.

* Text is `String`; a `const char*` buffer is a `String` whose characters
  stand for the bytes stored at the pointer, followed by a terminating NUL.
* 32-bit machine integers are `Nat`/`Int` with explicit reduction modulo `2^32`.
* The SPIRV-Cross compiler, the glslang front end and the `sx` runtime are
  outside the repository; the calls the code makes to them are fields of
  explicit environment structures.
* An access past the end of a C array is an explicit fault value.
* Effects on the file system are a list of events in program order; console
  output and heap management are left out.
-/

namespace Glslcc

/-! ## Machine integers -/

/-- Value of an `uint32_t` after conversion to `int` (two's complement). -/
def to_int (v : Nat) : Int :=
  if v % 2 ^ 32 < 2 ^ 31 then ((v % 2 ^ 32 : Nat) : Int)
  else ((v % 2 ^ 32 : Nat) : Int) - 2 ^ 32

/-- Value of a `size_t` after the cast `uint32_t(...)`. -/
def to_uint32 (v : Int) : Nat := (v % 2 ^ 32).toNat

/-! ## Vertex semantic tables (glslcc.cpp 76-139) -/

/-- Enumerator `VERTEX_ATTRIB_COUNT` of `enum vertex_attribs`. -/
def VERTEX_ATTRIB_COUNT : Nat := 18

/-- Table `k_attrib_names[VERTEX_ATTRIB_COUNT]`. -/
def k_attrib_names : List String :=
  ["POSITION", "NORMAL", "TEXCOORD0", "TEXCOORD1", "TEXCOORD2", "TEXCOORD3",
   "TEXCOORD4", "TEXCOORD5", "TEXCOORD6", "TEXCOORD7", "COLOR0", "COLOR1",
   "COLOR2", "COLOR3", "TANGENT", "BINORMAL", "BLENDINDICES", "BLENDWEIGHT"]

/-- Table `k_attrib_sem_indices[VERTEX_ATTRIB_COUNT]`. -/
def k_attrib_sem_indices : List Int :=
  [0, 0, 0, 1, 2, 3, 4, 5, 6, 7, 0, 1, 2, 3, 0, 0, 0, 0]

/-- Outcome of an operation that C leaves undefined or that trips an assertion. -/
inductive fault where
  | out_of_bounds (index : Int)
  | null_pointer
  | uninitialized
  deriving DecidableEq, Repr

/-- Subscript `table[i]` of a C array with an `int` index: a value inside the
array, a fault outside of it. -/
def c_index {α : Type} (table : List α) (i : Int) : Except fault α :=
  if 0 ≤ i then
    match table[i.toNat]? with
    | some v => .ok v
    | none => .error (.out_of_bounds i)
  else .error (.out_of_bounds i)

/-! ## SPIR-V constants used by the code (spirv.hpp) -/

def StorageClassUniformConstant : Nat := 0
def StorageClassUniform : Nat := 2
def StorageClassPushConstant : Nat := 9
def StorageClassStorageBuffer : Nat := 12

def DecorationBlock : Nat := 2
def DecorationBufferBlock : Nat := 3
def DecorationNonWritable : Nat := 24
def DecorationNonReadable : Nat := 25
def DecorationLocation : Nat := 30
def DecorationBinding : Nat := 33
def DecorationDescriptorSet : Nat := 34
def DecorationInputAttachmentIndex : Nat := 43

/-! ## Backend interface (spirv_cross::Compiler) -/

/-- Fields of `spirv_cross::Resource` read by the code. -/
structure Resource where
  id : Nat
  type_id : Nat
  base_type_id : Nat
  name : String
  deriving DecidableEq, Repr

/-- Fields of `spirv_cross::SPIRType` read by the code. -/
structure SPIRType where
  self : Nat
  array : List Nat
  deriving DecidableEq, Repr

/-- Member functions of `spirv_cross::Compiler` called by
`output_resource_info`. A `Bitset` is its membership test. -/
structure Compiler where
  get_type : Nat → SPIRType
  get_storage_class : Nat → Nat
  get_decoration_bitset : Nat → Nat → Bool
  get_buffer_block_flags : Nat → Nat → Bool
  get_decoration : Nat → Nat → Nat
  get_fallback_name : Nat → String
  get_declared_struct_size : SPIRType → Nat
  get_declared_struct_size_runtime_array : SPIRType → Nat → Nat
  buffer_is_hlsl_counter_buffer : Nat → Bool
  buffer_get_hlsl_counter_buffer : Nat → Option Nat

/-- The member `ShaderResources` of the backend, one list per category. -/
structure ShaderResources where
  subpass_inputs : List Resource
  stage_inputs : List Resource
  stage_outputs : List Resource
  sampled_images : List Resource
  separate_images : List Resource
  separate_samplers : List Resource
  storage_images : List Resource
  storage_buffers : List Resource
  uniform_buffers : List Resource
  push_constant_buffers : List Resource
  atomic_counters : List Resource
  deriving DecidableEq, Repr

/-! ## JSON values built through sjson -/

/-- Scalar values the code puts into a resource record. -/
inductive sjson_value where
  | int (v : Int)
  | string (s : String)
  | bool (b : Bool)
  deriving DecidableEq, Repr

/-- A JSON object as the ordered list of its members. -/
abbrev sjson_object := List (String × sjson_value)

/-- Value stored under `key`, if the object has that member. -/
def sjson_find (obj : sjson_object) (key : String) : Option sjson_value :=
  match obj with
  | [] => none
  | (k, v) :: rest => if k = key then some v else sjson_find rest key

/-- One conditional `sjson_put_*` call. -/
def put_if (c : Bool) (key : String) (v : sjson_value) : sjson_object :=
  if c then [(key, v)] else []

/-! ## Resource classifier (glslcc.cpp 388-483) -/

/-- Transcription of `enum resource_type`. -/
inductive resource_type where
  | RES_TYPE_REGULAR
  | RES_TYPE_SSBO
  | RES_TYPE_VERTEX_INPUT
  deriving DecidableEq, Repr

/-- Local `is_push_constant` of the loop body. -/
def is_push_constant (compiler : Compiler) (res : Resource) : Bool :=
  compiler.get_storage_class res.id == StorageClassPushConstant

/-- Local `is_block` of the loop body. -/
def is_block (compiler : Compiler) (res : Resource) : Bool :=
  compiler.get_decoration_bitset (compiler.get_type res.type_id).self DecorationBlock ||
  compiler.get_decoration_bitset (compiler.get_type res.type_id).self DecorationBufferBlock

/-- Local `is_sized_block` of the loop body. -/
def is_sized_block (compiler : Compiler) (res : Resource) : Bool :=
  is_block compiler res &&
    (compiler.get_storage_class res.id == StorageClassUniform ||
     compiler.get_storage_class res.id == StorageClassUniformConstant)

/-- Local `fallback_id` of the loop body. -/
def fallback_id (compiler : Compiler) (res : Resource) : Nat :=
  if !is_push_constant compiler res && is_block compiler res then res.base_type_id else res.id

/-- Local `block_size`: zero unless the resource is a sized block. -/
def block_size (compiler : Compiler) (res : Resource) : Nat :=
  if is_sized_block compiler res then
    to_uint32 (compiler.get_declared_struct_size (compiler.get_type res.base_type_id))
  else 0

/-- Local `runtime_array_stride`: zero unless the resource is a sized block. -/
def runtime_array_stride (compiler : Compiler) (res : Resource) : Nat :=
  if is_sized_block compiler res then
    to_uint32
      ((compiler.get_declared_struct_size_runtime_array (compiler.get_type res.base_type_id) 1 : Int) -
       (compiler.get_declared_struct_size_runtime_array (compiler.get_type res.base_type_id) 0 : Int))
  else 0

/-- Local `mask` of the loop body. -/
def mask (compiler : Compiler) (res : Resource) (res_type : resource_type) : Nat → Bool :=
  if res_type = .RES_TYPE_SSBO then compiler.get_buffer_block_flags res.id
  else compiler.get_decoration_bitset res.id

/-- Local `arr_sz`: the extents added up in `int` arithmetic. -/
def arr_sz (dims : List Nat) : Int :=
  dims.foldl (fun acc arr => to_int (to_uint32 (acc + (arr % 2 ^ 32 : Nat)))) 0

/-- Local `loc`: `-1` unless the mask has the Location bit. -/
def loc (compiler : Compiler) (res : Resource) (res_type : resource_type) : Int :=
  if mask compiler res res_type DecorationLocation then
    to_int (compiler.get_decoration res.id DecorationLocation)
  else -1

/-- Name put under `"name"`. -/
def resource_name (compiler : Compiler) (res : Resource) : String :=
  if !res.name.isEmpty then res.name else compiler.get_fallback_name (fallback_id compiler res)

/-- Members put into `jres` before the vertex semantic lookup (lines 433-470). -/
def record_head (compiler : Compiler) (res : Resource) (res_type : resource_type) : sjson_object :=
  let type := compiler.get_type res.type_id
  let m := mask compiler res res_type
  [("id", .int (to_int res.id)), ("name", .string (resource_name compiler res))] ++
  put_if (!type.array.isEmpty) "array" (.int (arr_sz type.array)) ++
  put_if (m DecorationLocation) "location" (.int (loc compiler res res_type)) ++
  put_if (m DecorationDescriptorSet) "set"
    (.int (to_int (compiler.get_decoration res.id DecorationDescriptorSet))) ++
  put_if (m DecorationBinding) "binding"
    (.int (to_int (compiler.get_decoration res.id DecorationBinding))) ++
  put_if (m DecorationInputAttachmentIndex) "attachment"
    (.int (to_int (compiler.get_decoration res.id DecorationInputAttachmentIndex))) ++
  put_if (m DecorationNonReadable) "writeonly" (.bool true) ++
  put_if (m DecorationNonWritable) "readonly" (.bool true) ++
  put_if (is_sized_block compiler res) "block_size" (.int (to_int (block_size compiler res))) ++
  put_if (is_sized_block compiler res && runtime_array_stride compiler res != 0)
    "unsized_array_stride" (.int (to_int (runtime_array_stride compiler res)))

/-- Members put after the semantic lookup (lines 477-479). -/
def record_tail (compiler : Compiler) (res : Resource) (res_type : resource_type) : sjson_object :=
  if res_type = .RES_TYPE_SSBO then
    match compiler.buffer_get_hlsl_counter_buffer res.id with
    | some counter_id => [("hlsl_counter_buffer_id", .int (to_int counter_id))]
    | none => []
  else []

/-- Vertex semantic members (lines 472-475): both tables are subscripted with
`loc` as soon as the category is vertex input and `loc` differs from `-1`. -/
def record_semantic (res_type : resource_type) (loc : Int) : Except fault sjson_object :=
  if res_type = .RES_TYPE_VERTEX_INPUT ∧ loc ≠ -1 then do
    let name ← c_index k_attrib_names loc
    let index ← c_index k_attrib_sem_indices loc
    pure [("semantic", .string name), ("semantic_index", .int index)]
  else pure []

/-- Body of the loop of `output_resource_info`: `none` when the resource is
skipped by `continue`, otherwise the record appended to the parent array. -/
def output_resource (compiler : Compiler) (res : Resource) (res_type : resource_type) :
    Except fault (Option sjson_object) :=
  if res_type = .RES_TYPE_SSBO ∧ compiler.buffer_is_hlsl_counter_buffer res.id = true then
    pure none
  else do
    let semantic ← record_semantic res_type (loc compiler res res_type)
    pure (some (record_head compiler res res_type ++ semantic ++ record_tail compiler res res_type))

/-- Function `output_resource_info`: the records appended to `jparent`, in the
order of `ress`. -/
def output_resource_info (compiler : Compiler) (ress : List Resource)
    (res_type : resource_type) : Except fault (List sjson_object) :=
  match ress with
  | [] => pure []
  | res :: rest => do
    let r ← output_resource compiler res res_type
    let rs ← output_resource_info compiler rest res_type
    pure (match r with
      | some jres => jres :: rs
      | none => rs)

/-! ## Configuration (glslcc.cpp 56-74, 212-229) -/

/-- Transcription of `enum shader_lang`. -/
inductive shader_lang where
  | SHADER_LANG_GLES
  | SHADER_LANG_HLSL
  | SHADER_LANG_METAL
  | SHADER_LANG_COUNT
  deriving DecidableEq, Repr

/-- Numeric value of a `shader_lang` enumerator. -/
def shader_lang.toInt : shader_lang → Int
  | .SHADER_LANG_GLES => 0
  | .SHADER_LANG_HLSL => 1
  | .SHADER_LANG_METAL => 2
  | .SHADER_LANG_COUNT => 3

/-- Table `k_shader_types[SHADER_LANG_COUNT]`. -/
def k_shader_types : List String := ["gles", "hlsl", "metal"]

/-- The stages of `EShLanguage` that `compile_files` puts into a
`compile_file_desc`; no other enumerator reaches the code below. -/
inductive EShLanguage where
  | EShLangVertex
  | EShLangFragment
  | EShLangCompute
  deriving DecidableEq, Repr

/-- Transcription of `struct p_define`. -/
structure p_define where
  defn : String
  val : Option String
  deriving DecidableEq, Repr

/-- Transcription of `struct cmd_args`; a null pointer is `none`, the
`Includer` member is the list of its system directories. -/
structure cmd_args where
  vs_filepath : Option String
  fs_filepath : Option String
  cs_filepath : Option String
  out_filepath : Option String
  lang : shader_lang
  defines : List p_define
  includer : List String
  profile_ver : Int
  invert_y : Int
  preprocess : Int
  flatten_ubos : Int
  sgs_file : Int
  reflect : Int
  cvar : Option String
  reflect_filepath : Option String
  deriving DecidableEq, Repr

/-- Function `get_stage_name`; its `default:` branch belongs to enumerators
that `EShLanguage` above does not have. -/
def get_stage_name : EShLanguage → String
  | .EShLangVertex => "vs"
  | .EShLangFragment => "fs"
  | .EShLangCompute => "cs"

/-! ## Reflection extractor (glslcc.cpp 485-532) -/

/-- The JSON tree built by `output_reflection`: the root members `language`
and `profile_version`, and the object keyed by the stage name holding `file`
and one array per emitted category, in emission order. -/
structure reflect_document where
  language : String
  profile_version : Int
  stage_name : String
  file : String
  groups : List (String × List sjson_object)
  deriving DecidableEq, Repr

/-- One `if (!ress.X.empty()) output_resource_info(..., sjson_put_array(..., key), ...)`
statement: the array is created under `key` before the resources are visited. -/
def output_group (compiler : Compiler) (key : String) (ress : List Resource)
    (res_type : resource_type) : Except fault (List (String × List sjson_object)) :=
  if !ress.isEmpty then do
    let records ← output_resource_info compiler ress res_type
    pure [(key, records)]
  else pure []

/-- Function `output_reflection`, up to the serialisation of the tree. -/
def output_reflection (args : cmd_args) (compiler : Compiler) (ress : ShaderResources)
    (filename : String) (stage : EShLanguage) : Except fault reflect_document := do
  let language ← c_index k_shader_types args.lang.toInt
  let g1 ← output_group compiler "subpass_inputs" ress.subpass_inputs .RES_TYPE_REGULAR
  let g2 ← output_group compiler "inputs" ress.stage_inputs
    (if stage = .EShLangVertex then .RES_TYPE_VERTEX_INPUT else .RES_TYPE_REGULAR)
  let g3 ← output_group compiler "outputs" ress.stage_outputs .RES_TYPE_REGULAR
  let g4 ← output_group compiler "textures" ress.sampled_images .RES_TYPE_REGULAR
  let g5 ← output_group compiler "sep_images" ress.separate_images .RES_TYPE_REGULAR
  let g6 ← output_group compiler "sep_samplers" ress.separate_samplers .RES_TYPE_REGULAR
  let g7 ← output_group compiler "storage_images" ress.storage_images .RES_TYPE_REGULAR
  let g8 ← output_group compiler "storage_buffers" ress.storage_buffers .RES_TYPE_SSBO
  let g9 ← output_group compiler "uniform_buffers" ress.uniform_buffers .RES_TYPE_REGULAR
  let g10 ← output_group compiler "push_cbs" ress.push_constant_buffers .RES_TYPE_REGULAR
  let g11 ← output_group compiler "counters" ress.atomic_counters .RES_TYPE_REGULAR
  pure { language := language
         profile_version := args.profile_ver
         stage_name := get_stage_name stage
         file := filename
         groups := g1 ++ g2 ++ g3 ++ g4 ++ g5 ++ g6 ++ g7 ++ g8 ++ g9 ++ g10 ++ g11 }

/-! ## Runtime environment (sx, sjson, the C platform) -/

/-- What the code observes of the `sx`/`sjson` libraries and of the platform. -/
structure runtime where
  /-- Whether plain `char` is a signed type. -/
  char_is_signed : Bool
  /-- Result of `sx_file_open_writer` for a path. -/
  sx_file_open_writer : String → Bool
  /-- Result `(ext, basename)` of `sx_os_path_splitext` for buffer sizes and a path. -/
  sx_os_path_splitext : Nat → Nat → String → String × String
  /-- Result of `sx_os_path_ext` for a buffer size and a path. -/
  sx_os_path_ext : Nat → String → String
  /-- Result of `sx_os_path_isfile`. -/
  sx_os_path_isfile : String → Bool
  /-- Result of `sx_file_load_bin`: the file contents, `none` for a null block. -/
  sx_file_load_bin : String → Option String
  /-- Compact serialisation `sjson_encode`. -/
  sjson_encode : reflect_document → String
  /-- Indented serialisation `sjson_stringify` with indent of two blanks. -/
  sjson_stringify : reflect_document → String

/-- Effects on the outside world, in program order. -/
inductive io_event where
  /-- `sx_os_path_isfile(path)`. -/
  | stat (path : String)
  /-- `glslang::InitializeProcess()`, the first statement of `compile_files`. -/
  | glslang_start
  /-- `sx_file_load_bin(path)`. -/
  | load (path : String)
  /-- A writer opened on `path` (appending or truncating) and `text` written. -/
  | write (path : String) (append : Bool) (text : String)
  /-- `sgs_create_file` for `path`. -/
  | sgs_create (path : String)
  /-- `sgs_commit` wrote `bytes` to `path`. -/
  | sgs_write (path : String) (bytes : List Nat)
  /-- `sgs_commit` failed while writing `path`. -/
  | sgs_write_failed (path : String)
  deriving DecidableEq, Repr

/-! ## Byte-array emitter (glslcc.cpp 534-595) -/

/-- Length of the C string stored in a buffer (`sx_strlen`): the number of
characters before the first NUL; the buffer ends with a NUL of its own. -/
def sx_strlen (data : String) : Nat :=
  (data.toList.takeWhile (fun c => c != Char.ofNat 0)).length

/-- Value of the byte at index `i` of a buffer after integer promotion of the
`char`; the buffer holds the contents and then its terminating NUL. -/
def byte_value (rt : runtime) (data : String) (i : Nat) : Int :=
  let b := (data.toList.getD i (Char.ofNat 0)).toNat % 256
  if rt.char_is_signed && decide (128 ≤ b) then (b : Int) - 256 else (b : Int)

/-- Expression `data[i]`: defined for the `data.length + 1` bytes of the buffer. -/
def data_at (rt : runtime) (data : String) (i : Nat) : Except fault Int :=
  if i ≤ data.length then pure (byte_value rt data i)
  else throw (.out_of_bounds i)

/-- Conversion `%02x` of an `int` argument: the argument read as `unsigned`,
in lower-case hexadecimal, zero-padded to at least two digits. -/
def fmt_02x (v : Int) : String :=
  let digits := Nat.toDigits 16 (to_uint32 v)
  String.mk (List.replicate (2 - digits.length) '0' ++ digits)

/-- Result of `sx_snprintf(buf, size, ...)`: the formatted text cut to
`size - 1` characters. -/
def sx_snprintf (size : Nat) (formatted : String) : String :=
  String.mk (formatted.toList.take (size - 1))

/-- The header comment written on a non-append write. -/
def file_header : String :=
  sx_snprintf 512
    ("// This file is automatically created by glslcc v" ++ toString 1 ++ "." ++ toString 2 ++
     "." ++ toString 0 ++ "\n" ++
     "// http://www.github.com/septag/glslcc\n" ++
     "// \n" ++
     "#pragma once\n\n")

/-- Local `len` of `write_file`. -/
def write_file_len (data : String) (binary_size : Int) : Nat :=
  if 0 < binary_size then binary_size.toNat else sx_strlen data + 1

/-- The declaration opener written through `var[128]`. -/
def array_decl (cvar : String) (len : Nat) : String :=
  sx_snprintf 128 ("static const unsigned char " ++ cvar ++ "[" ++ toString len ++ "] = \x7b\n\t")

/-- The loop `for (int i = 0; i < len; i++)` of `write_file`, started at index
`i` with `todo = len - i` iterations left: the texts passed to
`sx_file_write_text`, in order. -/
def hex_loop (rt : runtime) (data : String) (len : Nat) :
    (todo : Nat) → (i : Nat) → (char_offset : Nat) → Except fault (List String)
  | 0, _, _ => pure []
  | todo + 1, i, char_offset => do
    let v ← data_at rt data i
    let hex := if i + 1 ≠ len then sx_snprintf 32 ("0x" ++ fmt_02x v ++ ", ")
               else sx_snprintf 32 ("0x" ++ fmt_02x v ++ " \x7d;\n")
    let wrap := char_offset + 1 = 16
    let rest ← hex_loop rt data len todo (i + 1) (if wrap then 0 else char_offset + 1)
    pure (hex :: (if wrap then "\n\t" :: rest else rest))

/-- The C string stored in a buffer: its characters before the first NUL. -/
def c_text (data : String) : String :=
  String.mk (data.toList.take (sx_strlen data))

/-- The branch of `write_file` without a variable name: `sx_file_write` of
`binary_size` bytes, or of the C string when `binary_size` is not positive. -/
def raw_text (data : String) (binary_size : Int) : Except fault String :=
  if 0 < binary_size then
    (if binary_size.toNat ≤ data.length + 1 then
      pure (String.mk ((data.toList ++ [Char.ofNat 0]).take binary_size.toNat))
    else throw (.out_of_bounds binary_size))
  else pure (c_text data)

/-- The branch of `write_file` with a variable name: the texts passed to
`sx_file_write_text`, concatenated. -/
def cvar_text (rt : runtime) (data : String) (name : String) (append : Bool)
    (binary_size : Int) : Except fault String := do
  let len := write_file_len data binary_size
  let chunks ← hex_loop rt data len len 0 0
  pure ((if append then "" else file_header) ++ array_decl name len ++
        String.join chunks ++ "\n")

/-- Everything `write_file` sends to the opened writer; the test
`cvar && cvar[0]` selects the branch. -/
def write_file_text (rt : runtime) (data : String) (cvar : Option String) (append : Bool)
    (binary_size : Int) : Except fault String :=
  match cvar with
  | some name =>
    if name.isEmpty then raw_text data binary_size
    else cvar_text rt data name append binary_size
  | none => raw_text data binary_size

/-- Function `write_file`: the returned flag and the effect on the file system. -/
def write_file (rt : runtime) (filepath : String) (data : String) (cvar : Option String)
    (append : Bool) (binary_size : Int) : Except fault (Bool × List io_event) :=
  if !rt.sx_file_open_writer filepath then pure (false, [])
  else do
    let text ← write_file_text rt data cvar append binary_size
    pure (true, [.write filepath append text])

/-! ## Binary container (sgs-file.h) -/

/-- Constant `SGS_FILE_SIG`. -/
def SGS_FILE_SIG : Nat := 0x53475331

/-- Constant `SGS_FILE_VERSION`. -/
def SGS_FILE_VERSION : Int := 100

/-- Transcription of `enum sgs_shader_lang`. -/
inductive sgs_shader_lang where
  | SGS_SHADER_GLES
  | SGS_SHADER_HLSL
  | SGS_SHADER_MSL
  deriving DecidableEq, Repr

/-- Numeric value of an `sgs_shader_lang` enumerator. -/
def sgs_shader_lang.toInt : sgs_shader_lang → Int
  | .SGS_SHADER_GLES => 1
  | .SGS_SHADER_HLSL => 2
  | .SGS_SHADER_MSL => 3

/-- Transcription of `enum sgs_shader_stage`. -/
inductive sgs_shader_stage where
  | SGS_STAGE_VERTEX
  | SGS_STAGE_FRAGMENT
  | SGS_STAGE_COMPUTE
  deriving DecidableEq, Repr

/-- Numeric value of an `sgs_shader_stage` enumerator. -/
def sgs_shader_stage.toInt : sgs_shader_stage → Int
  | .SGS_STAGE_VERTEX => 0
  | .SGS_STAGE_FRAGMENT => 1
  | .SGS_STAGE_COMPUTE => 2

/-- Transcription of `struct sgs_file_stage` (packed, five `int`). -/
structure sgs_file_stage where
  stage : Int
  code_size : Int
  code_offset : Int
  reflect_size : Int
  reflect_offset : Int
  deriving DecidableEq, Repr

/-- Transcription of `struct sgs_file_header` (packed, `uint32_t` and four `int`). -/
structure sgs_file_header where
  sig : Nat
  version : Int
  lang : Int
  profile_ver : Int
  num_stages : Int
  deriving DecidableEq, Repr

/-- Byte size of the packed `sgs_file_header`. -/
def sizeof_sgs_file_header : Nat := 20

/-- Byte size of the packed `sgs_file_stage`. -/
def sizeof_sgs_file_stage : Nat := 20

/-- The four bytes of a 32-bit value, least significant first. -/
def le32 (v : Int) : List Nat :=
  let u := to_uint32 v
  [u % 256, u / 256 % 256, u / 65536 % 256, u / 16777216 % 256]

/-- The packed bytes of a header. -/
def sgs_file_header.bytes (h : sgs_file_header) : List Nat :=
  le32 h.sig ++ le32 h.version ++ le32 h.lang ++ le32 h.profile_ver ++ le32 h.num_stages

/-- The packed bytes of a stage-table entry. -/
def sgs_file_stage.bytes (e : sgs_file_stage) : List Nat :=
  le32 e.stage ++ le32 e.code_size ++ le32 e.code_offset ++ le32 e.reflect_size ++
  le32 e.reflect_offset

/-- The bytes of the C string stored in a buffer. -/
def c_string_bytes (data : String) : List Nat :=
  (data.toList.take (sx_strlen data)).map (fun c => c.toNat % 256)

/-- Modelled from the spec: the in-memory per-stage record of the container
packager (section 4.3); `struct sgs_file` is only declared in sgs-file.h. -/
structure sgs_stage_data where
  stage : sgs_shader_stage
  code : List Nat
  reflect : List Nat
  deriving DecidableEq, Repr

/-- Modelled from the spec: the container handle of section 4.3, holding the
buffered header fields and the per-stage records in request order. -/
structure sgs_file where
  filepath : String
  lang : sgs_shader_lang
  profile_ver : Int
  stages : List sgs_stage_data
  committed : Bool
  deriving DecidableEq, Repr

/-- Modelled from the spec: `sgs_create_file`, whose body is not part of the
sources; it buffers the header fields of a new handle. -/
def sgs_create_file (filepath : String) (lang : sgs_shader_lang) (profile_ver : Int) : sgs_file :=
  { filepath := filepath, lang := lang, profile_ver := profile_ver, stages := [], committed := false }

/-- Modelled from the spec: the update of the record keyed by `stage`, which is
created at the end of the list when the handle has none for that stage. -/
def sgs_update_stage (stages : List sgs_stage_data) (stage : sgs_shader_stage)
    (upd : sgs_stage_data → sgs_stage_data) : List sgs_stage_data :=
  match stages with
  | [] => [upd { stage := stage, code := [], reflect := [] }]
  | s :: rest => if s.stage = stage then upd s :: rest else s :: sgs_update_stage rest stage upd

/-- Modelled from the spec: `sgs_add_stage_code`, whose body is not part of the
sources; it appends the blob to the record of the stage and is rejected after
a commit. -/
def sgs_add_stage_code (f : sgs_file) (stage : sgs_shader_stage) (code : String) : sgs_file :=
  if f.committed then f
  else { f with stages := sgs_update_stage f.stages stage
                  (fun s => { s with code := s.code ++ c_string_bytes code }) }

/-- Modelled from the spec: `sgs_add_stage_reflect`, whose body is not part of
the sources; it appends the blob to the record of the stage and is rejected
after a commit. -/
def sgs_add_stage_reflect (f : sgs_file) (stage : sgs_shader_stage) (reflect : String) : sgs_file :=
  if f.committed then f
  else { f with stages := sgs_update_stage f.stages stage
                  (fun s => { s with reflect := s.reflect ++ c_string_bytes reflect }) }

/-- Modelled from the spec: the stage table computed by the single pass of
`sgs_commit`, `offset` being the file offset of the first blob still to place. -/
def sgs_stage_table (stages : List sgs_stage_data) (offset : Nat) : List sgs_file_stage :=
  match stages with
  | [] => []
  | s :: rest =>
    { stage := s.stage.toInt
      code_size := to_int s.code.length
      code_offset := to_int offset
      reflect_size := to_int s.reflect.length
      reflect_offset := to_int (offset + s.code.length) } ::
    sgs_stage_table rest (offset + s.code.length + s.reflect.length)

/-- Modelled from the spec: the payload written by `sgs_commit`, every stage's
code blob followed by its reflection blob. -/
def sgs_payload (stages : List sgs_stage_data) : List Nat :=
  match stages with
  | [] => []
  | s :: rest => s.code ++ s.reflect ++ sgs_payload rest

/-- Modelled from the spec: the bytes `sgs_commit` writes, header, stage table,
payload. -/
def sgs_file_bytes (f : sgs_file) : List Nat :=
  let header : sgs_file_header :=
    { sig := SGS_FILE_SIG, version := SGS_FILE_VERSION, lang := f.lang.toInt,
      profile_ver := f.profile_ver, num_stages := to_int f.stages.length }
  header.bytes ++
  ((sgs_stage_table f.stages
      (sizeof_sgs_file_header + f.stages.length * sizeof_sgs_file_stage)).map
    sgs_file_stage.bytes).flatten ++
  sgs_payload f.stages

/-- Modelled from the spec: `sgs_commit`, whose body is not part of the
sources. `write_ok` tells whether the underlying writes succeed; the result is
the returned flag, the handle and the effect on the file system. -/
def sgs_commit (rt : runtime) (write_ok : String → Bool) (f : sgs_file) :
    Bool × sgs_file × List io_event :=
  if f.committed then (false, f, [])
  else if !rt.sx_file_open_writer f.filepath then (false, { f with committed := true }, [])
  else if !write_ok f.filepath then
    (false, { f with committed := true }, [.sgs_write_failed f.filepath])
  else (true, { f with committed := true }, [.sgs_write f.filepath (sgs_file_bytes f)])

/-- Reads a 32-bit little-endian value off the front of a byte list. -/
def read_le32 : List Nat → Option (Nat × List Nat)
  | b0 :: b1 :: b2 :: b3 :: rest => some (b0 + 256 * b1 + 65536 * b2 + 16777216 * b3, rest)
  | _ => none

/-- Reads one packed `sgs_file_stage`. -/
def read_stage (bytes : List Nat) : Option (sgs_file_stage × List Nat) := do
  let (stage, r1) ← read_le32 bytes
  let (code_size, r2) ← read_le32 r1
  let (code_offset, r3) ← read_le32 r2
  let (reflect_size, r4) ← read_le32 r3
  let (reflect_offset, r5) ← read_le32 r4
  pure ({ stage := to_int stage, code_size := to_int code_size, code_offset := to_int code_offset,
          reflect_size := to_int reflect_size, reflect_offset := to_int reflect_offset }, r5)

/-- Reads `n` consecutive stage-table entries. -/
def read_stages : Nat → List Nat → Option (List sgs_file_stage)
  | 0, _ => some []
  | n + 1, bytes => do
    let (e, rest) ← read_stage bytes
    let es ← read_stages n rest
    pure (e :: es)

/-- Reader of the container format of section 6: the packed header and the
stage table that follows it. -/
def sgs_read (bytes : List Nat) : Option (sgs_file_header × List sgs_file_stage) := do
  let (sig, r1) ← read_le32 bytes
  let (version, r2) ← read_le32 r1
  let (lang, r3) ← read_le32 r2
  let (profile_ver, r4) ← read_le32 r3
  let (num_stages, r5) ← read_le32 r4
  let stages ← read_stages (to_int num_stages).toNat r5
  pure ({ sig := sig, version := to_int version, lang := to_int lang,
          profile_ver := to_int profile_ver, num_stages := to_int num_stages }, stages)

/-- The byte range `[offset, offset + size)` of a file. -/
def byte_range (bytes : List Nat) (offset size : Int) : List Nat :=
  (bytes.drop offset.toNat).take size.toNat

/-! ## Output router (glslcc.cpp 597-734) -/

/-- What `cross_compile` obtains from SPIRV-Cross for one stage: the compiler
object, its resource listing and the generated code. -/
structure backend_output where
  compiler : Compiler
  ress : ShaderResources
  code : String

/-- The glslang front end and the SPIRV-Cross backend as seen by
`compile_files` and `cross_compile`. -/
structure toolchain where
  /-- Success of `shader->preprocess` for a stage, file name and source. -/
  preprocess : cmd_args → EShLanguage → String → String → Bool
  /-- Success of `shader->parse` for a stage, file name and source. -/
  parse : cmd_args → EShLanguage → String → String → Bool
  /-- Success of `prog->link` for the shaders added so far. -/
  link : List (EShLanguage × String) → Bool
  /-- Backend run of one stage: the output, or the message of the exception
  caught by `cross_compile`. -/
  compile : cmd_args → EShLanguage → Except String backend_output
  /-- Whether the writes of `sgs_commit` to a path succeed. -/
  sgs_write_ok : String → Bool

/-- Result of a function that returns an `int`, updates `g_sgs` and acts on
the file system. -/
structure outcome where
  ret : Int
  g_sgs : Option sgs_file
  events : List io_event
  deriving DecidableEq, Repr

/-- The `switch (stage)` of the container branch. -/
def sstage_of : EShLanguage → sgs_shader_stage
  | .EShLangVertex => .SGS_STAGE_VERTEX
  | .EShLangFragment => .SGS_STAGE_FRAGMENT
  | .EShLangCompute => .SGS_STAGE_COMPUTE

/-- Dereference of a `const char*` that the code uses without a null test. -/
def deref (p : Option String) : Except fault String :=
  match p with
  | some s => pure s
  | none => throw .null_pointer

/-- The branch `if (g_sgs)` of `cross_compile` (lines 667-678). -/
def cross_compile_sgs (rt : runtime) (f : sgs_file) (args : cmd_args) (out : backend_output)
    (stage : EShLanguage) : Except fault outcome := do
  let f1 := sgs_add_stage_code f (sstage_of stage) out.code
  let out_filepath ← deref args.out_filepath
  let doc ← output_reflection args out.compiler out.ress out_filepath stage
  let f2 := sgs_add_stage_reflect f1 (sstage_of stage) (rt.sjson_encode doc)
  pure { ret := 0, g_sgs := some f2, events := [] }

/-- Local `cvar_code` after lines 680-691. -/
def cvar_code (args : cmd_args) (stage : EShLanguage) : String :=
  let base := match args.cvar with
    | some s => s
    | none => ""
  if !base.isEmpty then base ++ "_" ++ get_stage_name stage else base

/-- Local `filepath` after lines 680-691. -/
def code_filepath (rt : runtime) (args : cmd_args) (stage : EShLanguage) : Except fault String := do
  let out_filepath ← deref args.out_filepath
  let base := match args.cvar with
    | some s => s
    | none => ""
  if !base.isEmpty then pure out_filepath
  else
    let (ext, basename) := rt.sx_os_path_splitext 32 512 out_filepath
    pure (basename ++ "_" ++ get_stage_name stage ++ ext)

/-- The branch `else` of `cross_compile` (lines 679-726). -/
def cross_compile_files (rt : runtime) (args : cmd_args) (out : backend_output)
    (stage : EShLanguage) (file_index : Int) : Except fault outcome := do
  let cvar_code := cvar_code args stage
  let filepath ← code_filepath rt args stage
  let append : Bool := !cvar_code.isEmpty && decide (file_index > 0)
  let (ok, ev1) ← write_file rt filepath out.code (some cvar_code) append (-1)
  if !ok then pure { ret := -1, g_sgs := none, events := ev1 }
  else if args.reflect ≠ 0 then do
    let doc ← output_reflection args out.compiler out.ress filepath stage
    let json_str := if cvar_code.isEmpty then rt.sjson_stringify doc else rt.sjson_encode doc
    let (reflect_filepath, append2) :=
      match args.reflect_filepath with
      | some p => (p, append)
      | none => if !cvar_code.isEmpty then (filepath, true) else (filepath ++ ".json", append)
    let cvar_refl := if !cvar_code.isEmpty then cvar_code ++ "_refl" else ""
    let (ok2, ev2) ← write_file rt reflect_filepath json_str (some cvar_refl) append2 (-1)
    if !ok2 then pure { ret := -1, g_sgs := none, events := ev1 ++ ev2 }
    else pure { ret := 0, g_sgs := none, events := ev1 ++ ev2 }
  else pure { ret := 0, g_sgs := none, events := ev1 }

/-- Function `cross_compile`, given the global `g_sgs`. -/
def cross_compile (rt : runtime) (tc : toolchain) (g_sgs : Option sgs_file) (args : cmd_args)
    (stage : EShLanguage) (file_index : Int) : Except fault outcome :=
  if args.lang = .SHADER_LANG_COUNT then throw .null_pointer
  else
    match tc.compile args stage with
    | .error _ => pure { ret := -1, g_sgs := g_sgs, events := [] }
    | .ok out =>
      match g_sgs with
      | some f => cross_compile_sgs rt f args out stage
      | none => cross_compile_files rt args out stage file_index

/-! ## Pipeline orchestrator (glslcc.cpp 736-905) -/

/-- Transcription of `struct compile_file_desc`. -/
structure compile_file_desc where
  stage : EShLanguage
  filename : String
  deriving DecidableEq, Repr

/-- The array `files` gathered at lines 765-779. -/
def gather_files (args : cmd_args) : List compile_file_desc :=
  (match args.vs_filepath with
    | some p => [{ stage := .EShLangVertex, filename := p }]
    | none => []) ++
  (match args.fs_filepath with
    | some p => [{ stage := .EShLangFragment, filename := p }]
    | none => []) ++
  (match args.cs_filepath with
    | some p => [{ stage := .EShLangCompute, filename := p }]
    | none => [])

/-- The first loop of `compile_files` (lines 804-865) over the files still to
load, `added` being the shaders already added to the program: `none` when a
load, preprocess or parse fails, otherwise the shaders added. -/
def load_files (rt : runtime) (tc : toolchain) (args : cmd_args) :
    List compile_file_desc → List (EShLanguage × String) →
      Option (List (EShLanguage × String)) × List io_event
  | [], added => (some added, [])
  | d :: rest, added =>
    match rt.sx_file_load_bin d.filename with
    | none => (none, [.load d.filename])
    | some source =>
      if args.preprocess ≠ 0 then
        if tc.preprocess args d.stage d.filename source then
          let (r, ev) := load_files rt tc args rest added
          (r, .load d.filename :: ev)
        else (none, [.load d.filename])
      else
        if !tc.parse args d.stage d.filename source then (none, [.load d.filename])
        else
          let (r, ev) := load_files rt tc args rest (added ++ [(d.stage, d.filename)])
          (r, .load d.filename :: ev)

/-- The second loop of `compile_files` (lines 880-895), started at index `i`. -/
def compile_loop (rt : runtime) (tc : toolchain) (args : cmd_args) :
    List compile_file_desc → Int → Option sgs_file → Except fault outcome
  | [], _, g_sgs => pure { ret := 0, g_sgs := g_sgs, events := [] }
  | d :: rest, i, g_sgs => do
    let r ← cross_compile rt tc g_sgs args d.stage i
    if r.ret ≠ 0 then pure { ret := -1, g_sgs := r.g_sgs, events := r.events }
    else
      let r2 ← compile_loop rt tc args rest (i + 1) r.g_sgs
      pure { ret := r2.ret, g_sgs := r2.g_sgs, events := r.events ++ r2.events }

/-- Function `compile_files`, given the global `g_sgs`. -/
def compile_files (rt : runtime) (tc : toolchain) (g_sgs : Option sgs_file) (args : cmd_args) :
    Except fault outcome :=
  let files := gather_files args
  match load_files rt tc args files [] with
  | (none, ev) => pure { ret := -1, g_sgs := g_sgs, events := .glslang_start :: ev }
  | (some added, ev) =>
    if args.preprocess ≠ 0 then
      pure { ret := 0, g_sgs := g_sgs, events := .glslang_start :: ev }
    else if !tc.link added then
      pure { ret := -1, g_sgs := g_sgs, events := .glslang_start :: ev }
    else do
      let r ← compile_loop rt tc args files 0 g_sgs
      pure { ret := r.ret, g_sgs := r.g_sgs, events := .glslang_start :: ev ++ r.events }

/-! ## Entry point (glslcc.cpp 907-1038) -/

/-- How a run of `main` ends: the value passed to `exit` or returned, and the
effects up to that point. -/
structure main_result where
  exit_code : Int
  events : List io_event
  deriving DecidableEq, Repr

/-- Function `sx_strequalnocase` on ASCII text. -/
def sx_strequalnocase (a b : String) : Bool :=
  a.toList.map Char.toLower == b.toList.map Char.toLower

/-- One operand `(p && !sx_os_path_isfile(p))` of the test at lines 969-971:
its value and the probes it makes. -/
def invalid_input (rt : runtime) (p : Option String) : Bool × List io_event :=
  match p with
  | some path => (!rt.sx_os_path_isfile path, [.stat path])
  | none => (false, [])

/-- The short-circuit disjunction at lines 969-971. -/
def inputs_invalid (rt : runtime) (args : cmd_args) : Bool × List io_event :=
  let (b1, e1) := invalid_input rt args.vs_filepath
  if b1 then (true, e1)
  else
    let (b2, e2) := invalid_input rt args.fs_filepath
    if b2 then (true, e1 ++ e2)
    else
      let (b3, e3) := invalid_input rt args.cs_filepath
      (b3, e1 ++ e2 ++ e3)

/-- Lines 997-1013: the automatic container flag and the default profile. -/
def finish_args (rt : runtime) (args : cmd_args) : cmd_args :=
  let args1 :=
    match args.out_filepath with
    | some p => if sx_strequalnocase (rt.sx_os_path_ext 32 p) ".sgs" then { args with sgs_file := 1 }
                else args
    | none => args
  if args1.profile_ver = 0 then
    if args1.lang = .SHADER_LANG_GLES then { args1 with profile_ver := 200 }
    else if args1.lang = .SHADER_LANG_HLSL then { args1 with profile_ver := 50 }
    else args1
  else args1

/-- The `switch (args.lang)` at lines 1017-1021; `slang` stays uninitialised
for `SHADER_LANG_COUNT`. -/
def slang_of : shader_lang → Except fault sgs_shader_lang
  | .SHADER_LANG_GLES => pure .SGS_SHADER_GLES
  | .SHADER_LANG_HLSL => pure .SGS_SHADER_HLSL
  | .SHADER_LANG_METAL => pure .SGS_SHADER_MSL
  | .SHADER_LANG_COUNT => throw .uninitialized

/-- Lines 1015-1038 of `main`: container creation, `compile_files`, commit and
the returned status. -/
def main_run (rt : runtime) (tc : toolchain) (args : cmd_args) (before : List io_event) :
    Except fault main_result := do
  let (g_sgs, ev0) ←
    (if args.sgs_file ≠ 0 ∧ args.preprocess = 0 then do
      let slang ← slang_of args.lang
      let out_filepath ← deref args.out_filepath
      pure (some (sgs_create_file out_filepath slang args.profile_ver),
            [io_event.sgs_create out_filepath])
    else pure (none, []) : Except fault (Option sgs_file × List io_event))
  let r ← compile_files rt tc g_sgs args
  let ev1 :=
    match r.g_sgs with
    | some f => if r.ret = 0 then (sgs_commit rt tc.sgs_write_ok f).2.2 else []
    | none => []
  pure { exit_code := r.ret, events := before ++ ev0 ++ r.events ++ ev1 }

/-- Function `main` after the option loop (lines 959-1038): `version` and
`dump_conf` are the two flag variables the loop fills besides `args`. -/
def main (rt : runtime) (tc : toolchain) (args : cmd_args) (version dump_conf : Int) :
    Except fault main_result :=
  if version ≠ 0 then pure { exit_code := 0, events := [] }
  else if dump_conf ≠ 0 then pure { exit_code := 0, events := [] }
  else
    let (invalid, ev) := inputs_invalid rt args
    if invalid then pure { exit_code := -1, events := ev }
    else if args.vs_filepath.isNone ∧ args.fs_filepath.isNone ∧ args.cs_filepath.isNone then
      pure { exit_code := -1, events := ev }
    else if args.cs_filepath.isSome ∧ (args.vs_filepath.isSome ∨ args.fs_filepath.isSome) then
      pure { exit_code := -1, events := ev }
    else if args.out_filepath.isNone ∧ args.preprocess = 0 then
      pure { exit_code := -1, events := ev }
    else if args.lang = .SHADER_LANG_COUNT ∧ args.preprocess = 0 then
      pure { exit_code := -1, events := ev }
    else main_run rt tc (finish_args rt args) ev

/-! ## Option parsing (glslcc.cpp 262-365) -/

/-- Function `sx_isspace`: blank, tab, line feed, vertical tab, form feed,
carriage return. -/
def sx_isspace (c : Char) : Bool :=
  c == ' ' || (decide (9 ≤ c.toNat) && decide (c.toNat ≤ 13))

/-- Function `sx_skip_whitespace`: the pointer advanced past leading white
space. -/
def sx_skip_whitespace (s : List Char) : List Char :=
  s.dropWhile sx_isspace

/-- Function `sx_strchar`: the pointer to the first occurrence of `c`, a null
pointer when there is none. -/
def sx_strchar (s : List Char) (c : Char) : Option (List Char) :=
  match s with
  | [] => none
  | x :: rest => if x = c then some (x :: rest) else sx_strchar rest c

/-- Local `len` of both parsers: the distance to the separator found by
`sx_strchar`, or the length of the rest of the string. -/
def item_len (s : List Char) (separator : Char) : Nat :=
  match sx_strchar s separator with
  | some next => s.length - next.length
  | none => s.length

/-- Lines 279-289: the copy of `len` characters, trimmed by the library
function `sx_trim_whitespace`, split at the first `=`. -/
def make_define (trim : String → String) (s : List Char) (len : Nat) : p_define :=
  let text := (trim (String.mk (s.take len))).toList
  match sx_strchar text '=' with
  | some eq => { defn := String.mk (text.take (text.length - eq.length)),
                 val := some (String.mk (eq.drop 1)) }
  | none => { defn := String.mk text, val := none }

/-- The loop `do ... while (def)` of `parse_defines`, run for at most `fuel`
iterations from the pointer `defn`: `none` when the loop is still running
after `fuel` iterations, otherwise the array `args->defines`. -/
def parse_defines_loop (trim : String → String) :
    Nat → List Char → List p_define → Option (List p_define)
  | 0, _, _ => none
  | fuel + 1, defn, defines =>
    let d := sx_skip_whitespace defn
    if d.isEmpty then
      -- `def[0]` is NUL: the body is skipped and `def` is still a non-null pointer
      parse_defines_loop trim fuel d defines
    else
      let len := item_len d ','
      let defines1 := if 0 < len then defines ++ [make_define trim d len] else defines
      match sx_strchar d ',' with
      | some next => parse_defines_loop trim fuel (next.drop 1) defines1
      | none => some defines1

/-- Function `parse_defines` run for at most `fuel` iterations of its loop. -/
def parse_defines (trim : String → String) (fuel : Nat) (args : cmd_args) (defines : String) :
    Option cmd_args :=
  match parse_defines_loop trim fuel defines.toList args.defines with
  | some ds => some { args with defines := ds }
  | none => none

/-- Member `Includer::addSystemDir`: the directory with every backslash
replaced by a slash, pushed to the back of `m_systemDirs`. -/
def addSystemDir (m_systemDirs : List String) (dir : String) : List String :=
  m_systemDirs ++ [String.mk (dir.toList.map (fun c => if c = Char.ofNat 92 then '/' else c))]

/-- The loop `do ... while (inc)` of `parse_includes`, run for at most `fuel`
iterations from the pointer `inc`: the item ends at the next `;` (line 343)
and the pointer advances to the next `,` (line 360). -/
def parse_includes_loop (trim : String → String) :
    Nat → List Char → List String → Option (List String)
  | 0, _, _ => none
  | fuel + 1, inc, dirs =>
    let i := sx_skip_whitespace inc
    if i.isEmpty then
      parse_includes_loop trim fuel i dirs
    else
      let len := item_len i ';'
      let dirs1 := if 0 < len then addSystemDir dirs (trim (String.mk (i.take len))) else dirs
      match sx_strchar i ',' with
      | some next => parse_includes_loop trim fuel (next.drop 1) dirs1
      | none => some dirs1

/-- Function `parse_includes` run for at most `fuel` iterations of its loop. -/
def parse_includes (trim : String → String) (fuel : Nat) (args : cmd_args) (includes : String) :
    Option cmd_args :=
  match parse_includes_loop trim fuel includes.toList args.includer with
  | some dirs => some { args with includer := dirs }
  | none => none

/-- The library function `sx_trim_whitespace` taken as dropping every white
space character. -/
def trim_all (s : String) : String :=
  String.mk (s.toList.filter (fun c => !sx_isspace c))

/-! ## Closed form of the emitted array -/

/-- The literal written for index `i` of an array of `len` bytes. -/
def hex_literal (rt : runtime) (data : String) (len i : Nat) : String :=
  if i + 1 ≠ len then sx_snprintf 32 ("0x" ++ fmt_02x (byte_value rt data i) ++ ", ")
  else sx_snprintf 32 ("0x" ++ fmt_02x (byte_value rt data i) ++ " \x7d;\n")

/-- The texts written for index `i`: the literal, and the line break after
every sixteenth literal. -/
def hex_chunk (rt : runtime) (data : String) (len i : Nat) : List String :=
  hex_literal rt data len i :: (if (i + 1) % 16 = 0 then ["\n\t"] else [])

/-- The texts written for the indices `0 .. len - 1`, in order. -/
def hex_chunks (rt : runtime) (data : String) (len : Nat) : List String :=
  (List.range len).flatMap (hex_chunk rt data len)

/-- Everything written for the array `name` holding the C string `data`: the
header comment unless appending, the declaration opener, the literals and the
final line feed. -/
def array_text (rt : runtime) (name data : String) (append : Bool) : String :=
  (if append then "" else file_header) ++ array_decl name (sx_strlen data + 1) ++
    String.join (hex_chunks rt data (sx_strlen data + 1)) ++ "\n"

/-- The literals of an array of `len` bytes with their separators: `, ` after
every literal but the last, a line break and a tab after every sixteenth of
these, and the closing brace with a line feed after the last literal. -/
def array_body (rt : runtime) (data : String) (len : Nat) : String :=
  String.join ((List.range len).map (fun i =>
    "0x" ++ fmt_02x (byte_value rt data i) ++
      (if i + 1 = len then " \x7d;\n" else if (i + 1) % 16 = 0 then ", \n\t" else ", ")))

/-! ## File contents -/

/-- Contents of `path` after one event, `before` being its contents so far
(`none` when the file does not exist). -/
def file_after_event (path : String) (before : Option String) (e : io_event) : Option String :=
  match e with
  | .write p append text =>
    if p = path then
      (if append then
        some ((match before with
          | some old => old
          | none => "") ++ text)
      else some text)
    else before
  | _ => before

/-- Contents of `path` after a sequence of events. -/
def file_after (path : String) (before : Option String) (events : List io_event) : Option String :=
  events.foldl (file_after_event path) before

/-! ## Concrete inputs -/

/-- A path splitter in the manner of `sx_os_path_splitext`: the extension
starts at the last dot of the path. -/
def split_at_last_dot (p : String) : String × String :=
  let r := p.toList.reverse
  let e := r.takeWhile (fun c => c != '.')
  if e.length = r.length then ("", p)
  else (String.mk ('.' :: e.reverse), String.mk ((r.drop (e.length + 1)).reverse))

/-- A runtime with signed `char` in which every path can be opened. -/
def rt_plain : runtime where
  char_is_signed := true
  sx_file_open_writer := fun _ => true
  sx_os_path_splitext := fun _ _ p => split_at_last_dot p
  sx_os_path_ext := fun _ p => (split_at_last_dot p).1
  sx_os_path_isfile := fun _ => true
  sx_file_load_bin := fun _ => some "void main() \x7b\x7d"
  sjson_encode := fun d => "\x7b" ++ d.stage_name ++ ":" ++ d.file ++ "\x7d"
  sjson_stringify := fun d => "\x7b " ++ d.stage_name ++ " : " ++ d.file ++ " \x7d"

/-- A backend without resources. -/
def compiler_empty : Compiler where
  get_type := fun id => { self := id, array := [] }
  get_storage_class := fun _ => 0
  get_decoration_bitset := fun _ _ => false
  get_buffer_block_flags := fun _ _ => false
  get_decoration := fun _ _ => 0
  get_fallback_name := fun id => "_" ++ toString id
  get_declared_struct_size := fun _ => 0
  get_declared_struct_size_runtime_array := fun _ _ => 0
  buffer_is_hlsl_counter_buffer := fun _ => false
  buffer_get_hlsl_counter_buffer := fun _ => none

/-- The empty resource listing. -/
def ress_empty : ShaderResources :=
  { subpass_inputs := [], stage_inputs := [], stage_outputs := [], sampled_images := [],
    separate_images := [], separate_samplers := [], storage_images := [], storage_buffers := [],
    uniform_buffers := [], push_constant_buffers := [], atomic_counters := [] }

/-- A toolchain in which every step succeeds; the generated code of a stage is
its short name. -/
def tc_plain : toolchain where
  preprocess := fun _ _ _ _ => true
  parse := fun _ _ _ _ => true
  link := fun _ => true
  compile := fun _ stage =>
    .ok { compiler := compiler_empty, ress := ress_empty, code := get_stage_name stage }
  sgs_write_ok := fun _ => true

/-- The toolchain `tc_plain` on a disk that rejects the container writes. -/
def tc_disk_full : toolchain := { tc_plain with sgs_write_ok := fun _ => false }

/-- Arguments of `glslcc --vert a.vert --frag a.frag --output shader.glsl --lang gles`. -/
def args_discrete : cmd_args :=
  { vs_filepath := some "a.vert", fs_filepath := some "a.frag", cs_filepath := none,
    out_filepath := some "shader.glsl", lang := .SHADER_LANG_GLES, defines := [], includer := [],
    profile_ver := 0, invert_y := 0, preprocess := 0, flatten_ubos := 0, sgs_file := 0,
    reflect := 0, cvar := none, reflect_filepath := none }

/-- The arguments `args_discrete` with `--cvar basic --output basic.h`. -/
def args_cvar : cmd_args :=
  { args_discrete with out_filepath := some "basic.h", cvar := some "basic" }

/-- The arguments `args_discrete` with `--reflect refl.json`. -/
def args_reflect : cmd_args :=
  { args_discrete with reflect := 1, reflect_filepath := some "refl.json" }

/-- The arguments `args_discrete` with `--compute a.comp` added. -/
def args_compute_vertex : cmd_args :=
  { args_discrete with cs_filepath := some "a.comp" }

/-- The arguments `args_discrete` with `--output shader.sgs`. -/
def args_sgs : cmd_args :=
  { args_discrete with out_filepath := some "shader.sgs" }


/-- A backend in which resource 5 of type 7 carries `location = 18`. -/
def compiler_loc18 : Compiler where
  get_type := fun _ => { self := 7, array := [] }
  get_storage_class := fun _ => 1
  get_decoration_bitset := fun id d => id == 5 && d == DecorationLocation
  get_buffer_block_flags := fun _ _ => false
  get_decoration := fun id d => if id == 5 && d == DecorationLocation then 18 else 0
  get_fallback_name := fun id => "_" ++ toString id
  get_declared_struct_size := fun _ => 0
  get_declared_struct_size_runtime_array := fun _ _ => 0
  buffer_is_hlsl_counter_buffer := fun _ => false
  buffer_get_hlsl_counter_buffer := fun _ => none

/-- The vertex input `layout(location = 18) in vec4 a_extra;`. -/
def res_loc18 : Resource := { id := 5, type_id := 7, base_type_id := 7, name := "a_extra" }

/-- A backend with one unnamed uniform block: variable 10 of storage class
Uniform, whose struct type 20 is decorated Block and has declared size 64. -/
def compiler_ubo : Compiler where
  get_type := fun id => { self := id, array := [] }
  get_storage_class := fun _ => StorageClassUniform
  get_decoration_bitset := fun id d => id == 20 && d == DecorationBlock
  get_buffer_block_flags := fun _ _ => false
  get_decoration := fun _ _ => 0
  get_fallback_name := fun id => "_" ++ toString id
  get_declared_struct_size := fun _ => 64
  get_declared_struct_size_runtime_array := fun _ _ => 64
  buffer_is_hlsl_counter_buffer := fun _ => false
  buffer_get_hlsl_counter_buffer := fun _ => none

/-- The unnamed uniform block of `compiler_ubo`. -/
def res_ubo : Resource := { id := 10, type_id := 20, base_type_id := 20, name := "" }

/-- The record emitted for `res_ubo`. -/
def record_ubo : sjson_object :=
  [("id", .int 10), ("name", .string "_20"), ("block_size", .int 64)]

/-- A backend that reports resource 30 as an HLSL counter buffer. -/
def compiler_counter : Compiler :=
  { compiler_empty with buffer_is_hlsl_counter_buffer := fun id => id == 30 }

/-- A resource listing whose only storage buffer is the counter buffer 30. -/
def ress_counter : ShaderResources :=
  { ress_empty with
    storage_buffers := [{ id := 30, type_id := 31, base_type_id := 31, name := "counter" }] }

/-- The arguments `args_cvar` with `--reflect refl.h`. -/
def args_cvar_reflect_path : cmd_args :=
  { args_cvar with reflect := 1, reflect_filepath := some "refl.h" }

/-- The arguments `args_cvar` with `--reflect` without a path. -/
def args_cvar_reflect : cmd_args :=
  { args_cvar with reflect := 1 }

/-- A backend with the sampler array `uniform sampler2D tex[2][3]` as variable
40 of type 41, decorated with descriptor set 1 and binding 2. -/
def compiler_tex : Compiler :=
  { compiler_empty with
    get_type := fun id => { self := id, array := if id == 41 then [2, 3] else [] }
    get_decoration_bitset := fun id d =>
      id == 40 && (d == DecorationDescriptorSet || d == DecorationBinding)
    get_decoration := fun id d =>
      if id == 40 && d == DecorationDescriptorSet then 1
      else if id == 40 && d == DecorationBinding then 2 else 0 }

/-- The sampler array of `compiler_tex`. -/
def res_tex : Resource := { id := 40, type_id := 41, base_type_id := 41, name := "tex" }

/-- The record emitted for `res_tex`. -/
def record_tex : sjson_object :=
  [("id", .int 40), ("name", .string "tex"), ("array", .int 5), ("set", .int 1),
   ("binding", .int 2)]

/-- The runtime `rt_plain` on a platform where plain `char` is unsigned. -/
def rt_unsigned : runtime := { rt_plain with char_is_signed := false }

/-- A buffer holding the single byte `0x80` before its terminator. -/
def data_0x80 : String := String.mk [Char.ofNat 128]

/-- The resources of a list for which the loop of `output_resource_info` does
not take the `continue` at line 406, in list order. -/
def emitted_resources (compiler : Compiler) (ress : List Resource) (res_type : resource_type) :
    List Resource :=
  ress.filter (fun res =>
    !(decide (res_type = .RES_TYPE_SSBO) && compiler.buffer_is_hlsl_counter_buffer res.id))

/-- A variable name of 100 characters. -/
def long_name : String := String.mk (List.replicate 100 'a')

/-- The arguments `args_cvar` with the 100-character base name `long_name`. -/
def args_cvar_long : cmd_args := { args_cvar with cvar := some long_name }

/-! ## Lemmas on records -/

theorem sjson_find_append (a b : sjson_object) (key : String) :
    sjson_find (a ++ b) key = (sjson_find a key).or (sjson_find b key) := by
  induction a with
  | nil => simp [sjson_find]
  | cons p rest ih =>
    obtain ⟨k, v⟩ := p
    by_cases h : k = key
    · simp [sjson_find, h]
    · simp [sjson_find, h, ih]

theorem sjson_find_put_if (c : Bool) (k key : String) (v : sjson_value) :
    sjson_find (put_if c k v) key = if c = true ∧ k = key then some v else none := by
  cases c <;> simp [put_if, sjson_find]

/-- Characterisation of the successful runs of the loop body: a record is
emitted exactly with the members of head, semantic part and tail. -/
theorem output_resource_ok (compiler : Compiler) (res : Resource) (res_type : resource_type)
    (jres : sjson_object) (h : output_resource compiler res res_type = .ok (some jres)) :
    ∃ semantic, record_semantic res_type (loc compiler res res_type) = .ok semantic ∧
      jres = record_head compiler res res_type ++ semantic ++ record_tail compiler res res_type := by
  unfold output_resource at h
  split at h
  · cases h
  · cases hs : record_semantic res_type (loc compiler res res_type) with
    | error e => rw [hs] at h; cases h
    | ok semantic =>
      rw [hs] at h
      refine ⟨semantic, rfl, ?_⟩
      injection h with h
      injection h with h
      exact h.symm

/-- The loop body emits a record whenever the resource is not a skipped
counter buffer and the semantic tables are not subscripted out of range. -/
theorem output_resource_emits (compiler : Compiler) (res : Resource) (res_type : resource_type)
    (hskip : ¬ (res_type = .RES_TYPE_SSBO ∧ compiler.buffer_is_hlsl_counter_buffer res.id = true))
    (hloc : res_type ≠ .RES_TYPE_VERTEX_INPUT ∨ loc compiler res res_type = -1 ∨
      (0 ≤ loc compiler res res_type ∧ loc compiler res res_type < 18)) :
    ∃ jres, output_resource compiler res res_type = .ok (some jres) := by
  unfold output_resource
  rw [if_neg hskip]
  have hsem : ∃ semantic, record_semantic res_type (loc compiler res res_type) = .ok semantic := by
    unfold record_semantic
    by_cases hc : res_type = .RES_TYPE_VERTEX_INPUT ∧ loc compiler res res_type ≠ -1
    · rw [if_pos hc]
      rcases hloc with h | h | ⟨h0, h18⟩
      · exact absurd hc.1 h
      · exact absurd h hc.2
      · generalize loc compiler res res_type = l at h0 h18
        have : l = 0 ∨ l = 1 ∨ l = 2 ∨ l = 3 ∨ l = 4 ∨ l = 5 ∨ l = 6 ∨ l = 7 ∨ l = 8 ∨ l = 9 ∨
            l = 10 ∨ l = 11 ∨ l = 12 ∨ l = 13 ∨ l = 14 ∨ l = 15 ∨ l = 16 ∨ l = 17 := by omega
        rcases this with h | h | h | h | h | h | h | h | h | h | h | h | h | h | h | h | h | h <;>
          subst h <;> exact ⟨_, rfl⟩
    · rw [if_neg hc]; exact ⟨_, rfl⟩
  obtain ⟨semantic, hs⟩ := hsem
  rw [hs]
  exact ⟨_, rfl⟩

theorem record_semantic_keys (res_type : resource_type) (l : Int) (semantic : sjson_object)
    (key : String) (h : record_semantic res_type l = .ok semantic)
    (h1 : key ≠ "semantic") (h2 : key ≠ "semantic_index") : sjson_find semantic key = none := by
  unfold record_semantic at h
  split at h
  · cases hn : c_index k_attrib_names l with
    | error e => rw [hn] at h; cases h
    | ok name =>
      cases hi : c_index k_attrib_sem_indices l with
      | error e => rw [hn, hi] at h; cases h
      | ok index =>
        rw [hn, hi] at h
        injection h with h
        subst h
        simp [sjson_find, Ne.symm h1, Ne.symm h2]
  · injection h with h
    subst h
    rfl

theorem record_tail_keys (compiler : Compiler) (res : Resource) (res_type : resource_type)
    (key : String) (h : key ≠ "hlsl_counter_buffer_id") :
    sjson_find (record_tail compiler res res_type) key = none := by
  unfold record_tail
  split
  · split
    · simp [sjson_find, Ne.symm h]
    · rfl
  · rfl

/-- Inside the tables the vertex semantic members are the table entries at
the location. -/
theorem record_semantic_in_range (l : Int) (h0 : 0 ≤ l) (h18 : l < 18) :
    ∃ name index, k_attrib_names[l.toNat]? = some name ∧
      k_attrib_sem_indices[l.toNat]? = some index ∧
      record_semantic .RES_TYPE_VERTEX_INPUT l =
        .ok [("semantic", .string name), ("semantic_index", .int index)] := by
  have : l = 0 ∨ l = 1 ∨ l = 2 ∨ l = 3 ∨ l = 4 ∨ l = 5 ∨ l = 6 ∨ l = 7 ∨ l = 8 ∨ l = 9 ∨
      l = 10 ∨ l = 11 ∨ l = 12 ∨ l = 13 ∨ l = 14 ∨ l = 15 ∨ l = 16 ∨ l = 17 := by omega
  rcases this with h | h | h | h | h | h | h | h | h | h | h | h | h | h | h | h | h | h <;>
    subst h <;> exact ⟨_, _, rfl, rfl, rfl⟩

/-- Outside the tables, and away from the sentinel `-1`, the lookup of the
vertex semantic members is a subscript out of bounds. -/
theorem record_semantic_out_of_range (l : Int) (hne : l ≠ -1) (h : l < 0 ∨ 18 ≤ l) :
    record_semantic .RES_TYPE_VERTEX_INPUT l = .error (.out_of_bounds l) := by
  unfold record_semantic
  rw [if_pos ⟨rfl, hne⟩]
  have hidx : c_index k_attrib_names l = .error (.out_of_bounds l) := by
    unfold c_index
    rcases h with h | h
    · rw [if_neg (by omega)]
    · rw [if_pos (by omega)]
      have hlen : k_attrib_names.length ≤ l.toNat := by
        have : k_attrib_names.length = 18 := rfl
        omega
      rw [List.getElem?_eq_none hlen]
  rw [hidx]
  rfl

/-! ## Properties of the resource classifier -/

/-- C1 (failing input). For the vertex input with `location = 18` the guard
`loc != -1` passes, both 18-entry semantic tables are subscripted with 18, one
past their last entry, and `output_resource_info` has no defined result. -/
theorem output_resource_info_location_18_out_of_bounds :
    loc compiler_loc18 res_loc18 .RES_TYPE_VERTEX_INPUT = 18 ∧
    k_attrib_names.length = VERTEX_ATTRIB_COUNT ∧
    k_attrib_sem_indices.length = VERTEX_ATTRIB_COUNT ∧
    c_index k_attrib_names 18 = .error (.out_of_bounds 18) ∧
    c_index k_attrib_sem_indices 18 = .error (.out_of_bounds 18) ∧
    output_resource_info compiler_loc18 [res_loc18] .RES_TYPE_VERTEX_INPUT =
      .error (.out_of_bounds 18) :=
  ⟨rfl, rfl, rfl, rfl, rfl, rfl⟩

/-- Loop body: every resource that is neither a skipped counter buffer nor a
vertex input with a location outside the semantic tables yields a record, and
the `name` member of the record is the resource's own name when that name is
non-empty, the fallback name of the base type id when the name is empty, the
type is decorated Block or BufferBlock and the storage class is not
PushConstant, and the fallback name of the resource's own id otherwise. -/
theorem output_resource_name (compiler : Compiler) (res : Resource)
    (res_type : resource_type) :
    ((¬ (res_type = .RES_TYPE_SSBO ∧ compiler.buffer_is_hlsl_counter_buffer res.id = true)) →
      (res_type ≠ .RES_TYPE_VERTEX_INPUT ∨ loc compiler res res_type = -1 ∨
        (0 ≤ loc compiler res res_type ∧ loc compiler res res_type < 18)) →
      ∃ jres, output_resource compiler res res_type = .ok (some jres)) ∧
    (∀ jres, output_resource compiler res res_type = .ok (some jres) →
      sjson_find jres "name" = some (.string
        (if res.name ≠ "" then res.name
         else if (compiler.get_decoration_bitset (compiler.get_type res.type_id).self
                    DecorationBlock = true ∨
                  compiler.get_decoration_bitset (compiler.get_type res.type_id).self
                    DecorationBufferBlock = true) ∧
                 compiler.get_storage_class res.id ≠ StorageClassPushConstant
           then compiler.get_fallback_name res.base_type_id
           else compiler.get_fallback_name res.id))) := by
  refine ⟨output_resource_emits compiler res res_type, ?_⟩
  intro jres h
  obtain ⟨semantic, -, rfl⟩ := output_resource_ok compiler res res_type jres h
  have hne : res.name.isEmpty = true ↔ res.name = "" := by
    rw [String.isEmpty_iff]
  simp only [record_head, List.append_assoc, List.cons_append, List.nil_append, sjson_find]
  rw [if_pos trivial]
  unfold resource_name fallback_id is_push_constant is_block
  by_cases hn : res.name = ""
  · have hE : res.name.isEmpty = true := hne.mpr hn
    rw [hE]
    simp only [hn, ne_eq, not_true_eq_false, if_false, Bool.not_true, Bool.false_eq_true]
    by_cases hb : compiler.get_decoration_bitset (compiler.get_type res.type_id).self
        DecorationBlock = true <;>
    by_cases hbb : compiler.get_decoration_bitset (compiler.get_type res.type_id).self
        DecorationBufferBlock = true <;>
    by_cases hp : compiler.get_storage_class res.id = StorageClassPushConstant <;>
    simp [hb, hbb, hp]
  · have hE : res.name.isEmpty = false := by
      cases hE : res.name.isEmpty
      · rfl
      · exact absurd (hne.mp hE) hn
    simp [hn, hE]

theorem to_int_to_uint32_of_lt (n : Nat) (h : n < 2 ^ 31) : to_int (to_uint32 (n : Int)) = (n : Int) := by
  unfold to_int to_uint32
  have h1 : ((n : Int) % 2 ^ 32).toNat = n := by omega
  rw [h1]
  have h2 : n % 2 ^ 32 = n := by omega
  rw [h2, if_pos h]

theorem sjson_find_nil (key : String) : sjson_find [] key = none := rfl

theorem sjson_find_cons (k : String) (v : sjson_value) (rest : sjson_object) (key : String) :
    sjson_find ((k, v) :: rest) key = if k = key then some v else sjson_find rest key := rfl

theorem record_head_block_size (compiler : Compiler) (res : Resource) (res_type : resource_type) :
    sjson_find (record_head compiler res res_type) "block_size" =
      if is_sized_block compiler res = true then
        some (.int (to_int (block_size compiler res))) else none := by
  simp +decide only [record_head, List.cons_append, List.nil_append, sjson_find_cons,
    sjson_find_nil, sjson_find_append, sjson_find_put_if]
  simp +decide

theorem record_head_unsized_array_stride (compiler : Compiler) (res : Resource)
    (res_type : resource_type) (h : is_sized_block compiler res = false) :
    sjson_find (record_head compiler res res_type) "unsized_array_stride" = none := by
  simp +decide only [record_head, List.cons_append, List.nil_append, sjson_find_cons,
    sjson_find_nil, sjson_find_append, sjson_find_put_if]
  simp +decide [h]

theorem is_sized_block_iff (compiler : Compiler) (res : Resource) :
    is_sized_block compiler res = true ↔
      ((compiler.get_decoration_bitset (compiler.get_type res.type_id).self DecorationBlock = true ∨
        compiler.get_decoration_bitset (compiler.get_type res.type_id).self
          DecorationBufferBlock = true) ∧
       (compiler.get_storage_class res.id = StorageClassUniform ∨
        compiler.get_storage_class res.id = StorageClassUniformConstant)) := by
  simp [is_sized_block, is_block]

/-- Loop body: in the record of a resource the member `block_size` is present
exactly when the resource's type is decorated Block or BufferBlock and its storage
class is Uniform or UniformConstant; outside of that case neither `block_size`
nor `unsized_array_stride` is present; when present, `block_size` is the
declared struct size of the base type as stored by the code (cast to
`uint32_t`, put as `int`), which is the declared size itself whenever that
size is below `2^31`. -/
theorem output_resource_block_size (compiler : Compiler) (res : Resource)
    (res_type : resource_type) (jres : sjson_object)
    (h : output_resource compiler res res_type = .ok (some jres)) :
    ((sjson_find jres "block_size").isSome = true ↔
      ((compiler.get_decoration_bitset (compiler.get_type res.type_id).self DecorationBlock = true ∨
        compiler.get_decoration_bitset (compiler.get_type res.type_id).self
          DecorationBufferBlock = true) ∧
       (compiler.get_storage_class res.id = StorageClassUniform ∨
        compiler.get_storage_class res.id = StorageClassUniformConstant))) ∧
    ((sjson_find jres "block_size").isSome = false →
      sjson_find jres "unsized_array_stride" = none) ∧
    ((sjson_find jres "block_size").isSome = true →
      sjson_find jres "block_size" = some (.int (to_int (to_uint32
        (compiler.get_declared_struct_size (compiler.get_type res.base_type_id)))))) ∧
    ((sjson_find jres "block_size").isSome = true →
      compiler.get_declared_struct_size (compiler.get_type res.base_type_id) < 2 ^ 31 →
      sjson_find jres "block_size" = some (.int
        (compiler.get_declared_struct_size (compiler.get_type res.base_type_id)))) := by
  obtain ⟨semantic, hs, rfl⟩ := output_resource_ok compiler res res_type jres h
  have hsem1 := record_semantic_keys res_type _ semantic "block_size" hs (by decide) (by decide)
  have hsem2 := record_semantic_keys res_type _ semantic "unsized_array_stride" hs
    (by decide) (by decide)
  have ht1 := record_tail_keys compiler res res_type "block_size" (by decide)
  have ht2 := record_tail_keys compiler res res_type "unsized_array_stride" (by decide)
  have hfind : sjson_find (record_head compiler res res_type ++ semantic ++
      record_tail compiler res res_type) "block_size" =
      if is_sized_block compiler res = true then
        some (.int (to_int (block_size compiler res))) else none := by
    rw [sjson_find_append, sjson_find_append, record_head_block_size, hsem1, ht1]
    split <;> simp
  rw [hfind, ← is_sized_block_iff]
  cases hb : is_sized_block compiler res
  · refine ⟨by simp, ?_, by simp, by simp⟩
    intro _
    rw [sjson_find_append, sjson_find_append, record_head_unsized_array_stride compiler res res_type hb]
    simp [hsem2, ht2]
  · have hsize : block_size compiler res = to_uint32
        (compiler.get_declared_struct_size (compiler.get_type res.base_type_id)) := by
      simp [block_size, hb]
    refine ⟨by simp, by simp, ?_, ?_⟩
    · intro _
      simp [hsize]
    · intro _ hlt
      simp [hsize, to_int_to_uint32_of_lt _ hlt]

/-! ## Lemmas on the byte-array emitter -/

theorem sx_strlen_le (data : String) : sx_strlen data ≤ data.length := by
  have h : ∀ (p : Char → Bool) (l : List Char), (l.takeWhile p).length ≤ l.length := by
    intro p l
    induction l with
    | nil => simp
    | cons c rest ih =>
      by_cases hc : p c = true
      · simp [List.takeWhile, hc, ih]
      · simp [List.takeWhile, hc]
  exact h _ _

theorem getD_takeWhile_length (p : Char → Bool) (d : Char) (l : List Char) :
    l.getD (l.takeWhile p).length d = d ∨ p (l.getD (l.takeWhile p).length d) = false := by
  induction l with
  | nil => left; rfl
  | cons c rest ih =>
    by_cases hc : p c = true
    · simpa [List.takeWhile, hc] using ih
    · right
      simp [List.takeWhile, hc]

theorem byte_value_at_strlen (rt : runtime) (data : String) :
    byte_value rt data (sx_strlen data) = 0 := by
  have h := getD_takeWhile_length (fun c => c != Char.ofNat 0) (Char.ofNat 0) data.toList
  have hc : data.toList.getD (sx_strlen data) (Char.ofNat 0) = Char.ofNat 0 := by
    unfold sx_strlen
    rcases h with h | h
    · exact h
    · simpa using h
  unfold byte_value
  rw [hc]
  have : (Char.ofNat 0).toNat % 256 = 0 := by decide
  simp [this]

theorem sx_snprintf_of_length_le (size : Nat) (s : String) (h : s.length ≤ size - 1) :
    sx_snprintf size s = s := by
  unfold sx_snprintf
  have h2 : s.toList.take (size - 1) = s.toList := List.take_of_length_le h
  rw [h2]
  rfl

theorem hex_loop_closed (rt : runtime) (data : String) (len : Nat) (hlen : len ≤ data.length + 1) :
    ∀ (todo i : Nat), i + todo = len →
      hex_loop rt data len todo i (i % 16) =
        .ok ((List.range' i todo).flatMap (hex_chunk rt data len)) := by
  intro todo
  induction todo with
  | zero => intro i _; rfl
  | succ todo ih =>
    intro i hi
    have hle : i ≤ data.length := by omega
    have hnext := ih (i + 1) (by omega)
    have hoff : (if i % 16 + 1 = 16 then 0 else i % 16 + 1) = (i + 1) % 16 := by
      split <;> omega
    have hwrap : (i % 16 + 1 = 16) ↔ ((i + 1) % 16 = 0) := by omega
    simp only [hex_loop, data_at, if_pos hle, hoff, hnext]
    by_cases hw : (i + 1) % 16 = 0
    · have hw2 : i % 16 + 1 = 16 := hwrap.mpr hw
      simp [List.range'_succ, hex_chunk, hex_literal, hw, hw2, bind, Except.bind, pure, Except.pure]
    · have hw2 : ¬ (i % 16 + 1 = 16) := fun h => hw (hwrap.mp h)
      simp [List.range'_succ, hex_chunk, hex_literal, hw, hw2, bind, Except.bind, pure, Except.pure]

theorem hex_loop_eq_chunks (rt : runtime) (data : String) (len : Nat)
    (hlen : len ≤ data.length + 1) :
    hex_loop rt data len len 0 0 = .ok (hex_chunks rt data len) := by
  have h := hex_loop_closed rt data len hlen len 0 (by omega)
  simpa [hex_chunks, List.range_eq_range'] using h

theorem sx_snprintf_0x_ne (body : String) : sx_snprintf 32 ("0x" ++ body) ≠ "\n\t" := by
  intro h
  have h2 := congrArg String.data h
  simp [sx_snprintf, String.toList] at h2

theorem hex_literal_ne_wrap (rt : runtime) (data : String) (len i : Nat) :
    hex_literal rt data len i ≠ "\n\t" := by
  unfold hex_literal
  split
  · rw [String.append_assoc]; exact sx_snprintf_0x_ne _
  · rw [String.append_assoc]; exact sx_snprintf_0x_ne _

theorem count_literals (rt : runtime) (data : String) (len : Nat) (l : List Nat) :
    ((l.flatMap (hex_chunk rt data len)).filter (fun c => c != "\n\t")).length = l.length := by
  induction l with
  | nil => rfl
  | cons i rest ih =>
    have hne := hex_literal_ne_wrap rt data len i
    simp only [List.flatMap_cons, List.filter_append, List.length_append, ih, hex_chunk]
    have hb : (hex_literal rt data len i != "\n\t") = true := by
      simpa [bne_iff_ne] using hne
    by_cases hw : (i + 1) % 16 = 0
    · simp [hw, hb, List.filter]
      omega
    · simp [hw, hb, List.filter]
      omega

theorem count_hex_chunks (rt : runtime) (data : String) (len : Nat) :
    ((hex_chunks rt data len).filter (fun c => c != "\n\t")).length = len := by
  unfold hex_chunks
  rw [count_literals, List.length_range]

theorem write_file_cvar (rt : runtime) (filepath data name : String) (append : Bool)
    (binary_size : Int) (hname : name ≠ "") (hopen : rt.sx_file_open_writer filepath = true)
    (hlen : write_file_len data binary_size ≤ data.length + 1) :
    write_file rt filepath data (some name) append binary_size =
      .ok (true, [.write filepath append
        ((if append then "" else file_header) ++
          array_decl name (write_file_len data binary_size) ++
          String.join (hex_chunks rt data (write_file_len data binary_size)) ++ "\n")]) := by
  have hE : name.isEmpty = false := by
    cases hE : name.isEmpty
    · rfl
    · rw [String.isEmpty_iff] at hE
      exact absurd hE hname
  simp only [write_file, hopen, write_file_text, hE, cvar_text, hex_loop_eq_chunks rt data _ hlen]
  rfl

/-- Named arrays. For a non-empty variable name and a writable path: without
a positive `binary_size` the array is opened through `array_decl` with length
`n + 1` for a text of length `n`, holds `n + 1` literals and ends with the
literal of the terminating zero byte; with an explicit binary length `m > 0`
(and a buffer of at least `m` bytes) it is opened with length `m` and holds
exactly `m` literals. The opener reads
`static const unsigned char <name>[<length>] = {` whenever that text has at
most 127 characters, the room of the 128-byte buffer it is formatted in. -/
theorem write_file_declared_length (rt : runtime) (filepath data name : String) (append : Bool)
    (hname : name ≠ "") (hopen : rt.sx_file_open_writer filepath = true) :
    (∀ binary_size : Int, binary_size ≤ 0 →
      write_file rt filepath data (some name) append binary_size =
        .ok (true, [.write filepath append
          ((if append then "" else file_header) ++ array_decl name (sx_strlen data + 1) ++
            String.join (hex_chunks rt data (sx_strlen data + 1)) ++ "\n")]) ∧
      ((hex_chunks rt data (sx_strlen data + 1)).filter (fun c => c != "\n\t")).length =
        sx_strlen data + 1 ∧
      hex_literal rt data (sx_strlen data + 1) (sx_strlen data) = "0x00 \x7d;\n") ∧
    (∀ m : Nat, 0 < m → m ≤ data.length + 1 →
      write_file rt filepath data (some name) append (m : Int) =
        .ok (true, [.write filepath append
          ((if append then "" else file_header) ++ array_decl name m ++
            String.join (hex_chunks rt data m) ++ "\n")]) ∧
      ((hex_chunks rt data m).filter (fun c => c != "\n\t")).length = m) ∧
    (∀ len : Nat,
      ("static const unsigned char " ++ name ++ "[" ++ toString len ++ "] = \x7b\n\t").length ≤ 127 →
      array_decl name len =
        "static const unsigned char " ++ name ++ "[" ++ toString len ++ "] = \x7b\n\t") := by
  refine ⟨?_, ?_, ?_⟩
  · intro binary_size hb
    have hl : write_file_len data binary_size = sx_strlen data + 1 := by
      unfold write_file_len
      rw [if_neg (by omega)]
    have hle := sx_strlen_le data
    refine ⟨?_, count_hex_chunks rt data _, ?_⟩
    · have h := write_file_cvar rt filepath data name append binary_size hname hopen
        (by rw [hl]; omega)
      rw [hl] at h
      exact h
    · unfold hex_literal
      rw [if_neg (by simp), byte_value_at_strlen]
      rfl
  · intro m hm hle
    have hl : write_file_len data (m : Int) = m := by
      unfold write_file_len
      rw [if_pos (by omega)]
      simp
    refine ⟨?_, count_hex_chunks rt data _⟩
    have h := write_file_cvar rt filepath data name append (m : Int) hname hopen (by rw [hl]; exact hle)
    rw [hl] at h
    exact h
  · intro len hfit
    exact sx_snprintf_of_length_le 128 _ hfit

/-- Example: the text `ab` written under the name `v` is declared with length 3
and ends with the zero byte. -/
theorem write_file_declared_length_example :
    write_file rt_plain "out.h" "ab" (some "v") true (-1) =
      .ok (true, [.write "out.h" true
        "static const unsigned char v[3] = \x7b\n\t0x61, 0x62, 0x00 \x7d;\n\n"]) :=
  ((write_file_declared_length rt_plain "out.h" "ab" "v" true (by decide) rfl).1 (-1)
    (by decide)).1.trans rfl

/-! ## Lemmas on the output router -/

theorem cvar_code_of_no_cvar (args : cmd_args) (stage : EShLanguage)
    (hcvar : args.cvar = none ∨ args.cvar = some "") : cvar_code args stage = "" := by
  have hemp : ("" : String).isEmpty = true := rfl
  rcases hcvar with h | h <;> simp [cvar_code, h, hemp]

theorem write_file_raw (rt : runtime) (filepath data : String) (append : Bool)
    (hopen : rt.sx_file_open_writer filepath = true) :
    write_file rt filepath data (some "") append (-1) =
      .ok (true, [.write filepath append (c_text data)]) := by
  simp [write_file, hopen, write_file_text, raw_text]
  rfl

theorem c_text_of_no_nul (data : String) (h : Char.ofNat 0 ∉ data.toList) : c_text data = data := by
  unfold c_text sx_strlen
  have h2 : data.toList.takeWhile (fun c => c != Char.ofNat 0) = data.toList := by
    rw [List.takeWhile_eq_self_iff]
    intro c hc
    simp only [bne_iff_ne, ne_eq]
    intro hEq
    exact h (hEq ▸ hc)
  rw [h2, List.take_length]
  rfl

/-- C5. In discrete-file mode (no container, no variable name) with the output
path splitting into extension `e` and base `b`, a successful backend run and a
writable derived path, every defined run of `cross_compile` starts by opening
`b ++ "_" ++ short(stage) ++ e` for a truncating write, whatever the stage
index, and writes the generated code there; without reflection that write is
the whole effect and the result is 0. The short names are vs, fs and cs. -/
theorem cross_compile_discrete_path (rt : runtime) (tc : toolchain) (args : cmd_args)
    (stage : EShLanguage) (file_index : Int) (out : backend_output) (path b e : String)
    (hlang : args.lang ≠ .SHADER_LANG_COUNT)
    (hcompile : tc.compile args stage = .ok out)
    (hcvar : args.cvar = none ∨ args.cvar = some "")
    (hpath : args.out_filepath = some path)
    (hsplit : rt.sx_os_path_splitext 32 512 path = (e, b))
    (hopen : rt.sx_file_open_writer (b ++ "_" ++ get_stage_name stage ++ e) = true) :
    (args.reflect = 0 →
      cross_compile rt tc none args stage file_index =
        .ok { ret := 0, g_sgs := none,
              events := [.write (b ++ "_" ++ get_stage_name stage ++ e) false (c_text out.code)] }) ∧
    (∀ r, cross_compile rt tc none args stage file_index = .ok r →
      ∃ rest, r.events =
        .write (b ++ "_" ++ get_stage_name stage ++ e) false (c_text out.code) :: rest) ∧
    (Char.ofNat 0 ∉ out.code.toList → c_text out.code = out.code) ∧
    get_stage_name .EShLangVertex = "vs" ∧ get_stage_name .EShLangFragment = "fs" ∧
    get_stage_name .EShLangCompute = "cs" := by
  have hemp : ("" : String).isEmpty = true := rfl
  have hcc := cvar_code_of_no_cvar args stage hcvar
  have hfp : code_filepath rt args stage = .ok (b ++ "_" ++ get_stage_name stage ++ e) := by
    rcases hcvar with h | h <;> simp [code_filepath, hpath, deref, h, hsplit, hemp] <;> rfl
  have hw := write_file_raw rt (b ++ "_" ++ get_stage_name stage ++ e) out.code false hopen
  have hstart : cross_compile rt tc none args stage file_index =
      cross_compile_files rt args out stage file_index := by
    simp [cross_compile, hlang, hcompile]
  refine ⟨?_, ?_, c_text_of_no_nul out.code, rfl, rfl, rfl⟩
  · intro hrefl
    rw [hstart]
    simp [cross_compile_files, hcc, hfp, hw, hrefl, hemp, bind, Except.bind, pure, Except.pure]
  · intro r hr
    rw [hstart] at hr
    simp only [cross_compile_files, hcc, hfp, bind, Except.bind, hemp, Bool.not_true,
      Bool.false_and, hw, pure, Except.pure] at hr
    simp only [Bool.false_eq_true, if_false] at hr
    split at hr
    · split at hr
      · cases hr
      · split at hr
        · cases hr
        · split at hr <;>
          · injection hr with hr
            subst hr
            exact ⟨_, rfl⟩
    · injection hr with hr
      subst hr
      exact ⟨_, rfl⟩

/-- C5 (witness). With output path `shader.glsl` the fragment stage, processed
at index 1, is written by a truncating write to `shader_fs.glsl`. -/
theorem cross_compile_discrete_path_witness :
    cross_compile rt_plain tc_plain none args_discrete .EShLangFragment 1 =
      .ok { ret := 0, g_sgs := none, events := [.write "shader_fs.glsl" false "fs"] } :=
  ((cross_compile_discrete_path rt_plain tc_plain args_discrete .EShLangFragment 1
      { compiler := compiler_empty, ress := ress_empty, code := "fs" } "shader.glsl" "shader" ".glsl"
      (by decide) rfl (Or.inl rfl) rfl rfl rfl).1 rfl).trans rfl

theorem stage_suffix_ne_empty (B : String) (stage : EShLanguage) :
    B ++ "_" ++ get_stage_name stage ≠ "" := by
  intro h
  have h2 := congrArg String.length h
  simp [String.length_append] at h2
  exact absurd h2.1.2 (by decide)

theorem isEmpty_eq_false_of_ne (s : String) (h : s ≠ "") : s.isEmpty = false := by
  cases hE : s.isEmpty
  · rfl
  · rw [String.isEmpty_iff] at hE
    exact absurd hE h

/-- Byte-array mode, code array. With non-empty base name `B` (no container), a
successful backend run and a writable output path, every defined run of
`cross_compile` at stage index `i` starts by writing the code array named
`B ++ "_" ++ short(stage)` to the configured output path itself, with a
truncating write (header comment first) when `i = 0` and an appending write
when `i > 0`; without reflection that write is the whole effect. -/
theorem cross_compile_cvar_append (rt : runtime) (tc : toolchain) (args : cmd_args)
    (stage : EShLanguage) (i : Nat) (out : backend_output) (B path : String)
    (hlang : args.lang ≠ .SHADER_LANG_COUNT)
    (hcompile : tc.compile args stage = .ok out)
    (hcvar : args.cvar = some B) (hB : B ≠ "")
    (hpath : args.out_filepath = some path)
    (hopen : rt.sx_file_open_writer path = true) :
    (args.reflect = 0 →
      cross_compile rt tc none args stage (i : Int) =
        .ok { ret := 0, g_sgs := none,
              events := [.write path (decide (0 < i))
                ((if 0 < i then "" else file_header) ++
                  array_decl (B ++ "_" ++ get_stage_name stage) (sx_strlen out.code + 1) ++
                  String.join (hex_chunks rt out.code (sx_strlen out.code + 1)) ++ "\n")] }) ∧
    (∀ r, cross_compile rt tc none args stage (i : Int) = .ok r →
      ∃ rest, r.events =
        .write path (decide (0 < i))
          ((if 0 < i then "" else file_header) ++
            array_decl (B ++ "_" ++ get_stage_name stage) (sx_strlen out.code + 1) ++
            String.join (hex_chunks rt out.code (sx_strlen out.code + 1)) ++ "\n") :: rest) ∧
    (("static const unsigned char " ++ (B ++ "_" ++ get_stage_name stage) ++ "[" ++
        toString (sx_strlen out.code + 1) ++ "] = \x7b\n\t").length ≤ 127 →
      array_decl (B ++ "_" ++ get_stage_name stage) (sx_strlen out.code + 1) =
        "static const unsigned char " ++ (B ++ "_" ++ get_stage_name stage) ++ "[" ++
          toString (sx_strlen out.code + 1) ++ "] = \x7b\n\t") := by
  have hBe : B.isEmpty = false := isEmpty_eq_false_of_ne B hB
  have hne := stage_suffix_ne_empty B stage
  have hce : (B ++ "_" ++ get_stage_name stage).isEmpty = false := isEmpty_eq_false_of_ne _ hne
  have hcc : cvar_code args stage = B ++ "_" ++ get_stage_name stage := by
    simp [cvar_code, hcvar, hBe]
  have hfp : code_filepath rt args stage = .ok path := by
    simp [code_filepath, hpath, deref, hcvar, hBe]
    rfl
  have hl : write_file_len out.code (-1) = sx_strlen out.code + 1 := by
    simp [write_file_len]
  have hw := write_file_cvar rt path out.code (B ++ "_" ++ get_stage_name stage)
    (decide (0 < i)) (-1) hne hopen (by rw [hl]; have := sx_strlen_le out.code; omega)
  rw [hl] at hw
  have hdec : (decide ((i : Int) > 0)) = decide (0 < i) := by
    by_cases h : 0 < i
    · simp [h]
    · simp [h]
  have hif : (if decide (0 < i) = true then "" else file_header) =
      (if 0 < i then "" else file_header) := by
    by_cases h : 0 < i <;> simp [h]
  rw [hif] at hw
  have hstart : cross_compile rt tc none args stage (i : Int) =
      cross_compile_files rt args out stage (i : Int) := by
    simp [cross_compile, hlang, hcompile]
  refine ⟨?_, ?_, fun hfit => sx_snprintf_of_length_le 128 _ hfit⟩
  · intro hrefl
    rw [hstart]
    simp only [cross_compile_files, hcc, hfp, hce, hdec, Bool.not_false, Bool.true_and, hw, hrefl,
      bind, Except.bind, pure, Except.pure]
    simp
  · intro r hr
    rw [hstart] at hr
    simp only [cross_compile_files, hcc, hfp, hce, hdec, Bool.not_false, Bool.true_and, hw,
      bind, Except.bind, pure, Except.pure] at hr
    simp only [Bool.not_true, Bool.false_eq_true, if_false] at hr
    split at hr
    · split at hr
      · cases hr
      · split at hr
        · cases hr
        · split at hr <;>
          · injection hr with hr
            subst hr
            exact ⟨_, rfl⟩
    · injection hr with hr
      subst hr
      exact ⟨_, rfl⟩

/-- Example: with base name `basic` the fragment stage at index 1 appends
the array `basic_fs` to `basic.h`; the whole run of `compile_files` writes
`basic_vs` with a truncating write and then appends `basic_fs`. -/
theorem cross_compile_cvar_append_example :
    cross_compile rt_plain tc_plain none args_cvar .EShLangFragment 1 =
      .ok { ret := 0, g_sgs := none,
            events := [.write "basic.h" true
              "static const unsigned char basic_fs[3] = \x7b\n\t0x66, 0x73, 0x00 \x7d;\n\n"] } ∧
    compile_files rt_plain tc_plain none args_cvar =
      .ok { ret := 0, g_sgs := none,
            events := [.glslang_start, .load "a.vert", .load "a.frag",
              .write "basic.h" false
                (file_header ++ "static const unsigned char basic_vs[3] = \x7b\n\t0x76, 0x73, 0x00 \x7d;\n\n"),
              .write "basic.h" true
                "static const unsigned char basic_fs[3] = \x7b\n\t0x66, 0x73, 0x00 \x7d;\n\n"] } :=
  ⟨((cross_compile_cvar_append rt_plain tc_plain args_cvar .EShLangFragment 1
      { compiler := compiler_empty, ress := ress_empty, code := "fs" } "basic" "basic.h"
      (by decide) rfl rfl (by decide) rfl rfl).1 rfl).trans rfl, rfl⟩

/-! ## Lemmas on the entry point -/

theorem invalid_input_events (rt : runtime) (p : Option String) :
    ∀ ev ∈ (invalid_input rt p).2, ∃ path, ev = io_event.stat path := by
  cases p with
  | none => simp [invalid_input]
  | some path => simp [invalid_input]

theorem inputs_invalid_events (rt : runtime) (args : cmd_args) :
    ∀ ev ∈ (inputs_invalid rt args).2, ∃ path, ev = io_event.stat path := by
  have h1 := invalid_input_events rt args.vs_filepath
  have h2 := invalid_input_events rt args.fs_filepath
  have h3 := invalid_input_events rt args.cs_filepath
  intro ev hev
  rcases hx1 : invalid_input rt args.vs_filepath with ⟨b1, e1⟩
  rcases hx2 : invalid_input rt args.fs_filepath with ⟨b2, e2⟩
  rcases hx3 : invalid_input rt args.cs_filepath with ⟨b3, e3⟩
  rw [hx1] at h1
  rw [hx2] at h2
  rw [hx3] at h3
  simp only [inputs_invalid, hx1, hx2, hx3] at hev
  have hmem : ev ∈ e1 ∨ ev ∈ e2 ∨ ev ∈ e3 := by
    cases b1 <;> cases b2 <;> cases b3 <;> simp at hev <;> tauto
  rcases hmem with h | h | h
  · exact h1 ev h
  · exact h2 ev h
  · exact h3 ev h

/-- C7 (counterexample). With a compute and a vertex stage requested and the
version flag set, `main` exits with status 0. -/
theorem main_compute_vertex_version_exit_zero :
    args_compute_vertex.cs_filepath = some "a.comp" ∧
    args_compute_vertex.vs_filepath = some "a.vert" ∧
    main rt_plain tc_plain args_compute_vertex 1 0 = .ok { exit_code := 0, events := [] } :=
  ⟨rfl, rfl, rfl⟩

/-- C7 (amended). Once the option loop has returned, every configuration that
requests a compute stage together with a vertex or a fragment stage ends
`main` before `compile_files` is entered: the only effects are the
`sx_os_path_isfile` probes of the input paths, so no source file is loaded, no
container is created and nothing is written. The exit status is -1 unless the
version or the dump-configuration flag is set; with one of these flags `main`
exits with status 0, without any effect. -/
theorem main_rejects_compute_with_graphics (rt : runtime) (tc : toolchain) (args : cmd_args)
    (version dump_conf : Int)
    (hcs : args.cs_filepath.isSome = true)
    (hgfx : args.vs_filepath.isSome = true ∨ args.fs_filepath.isSome = true) :
    ∃ r, main rt tc args version dump_conf = .ok r ∧
      (∀ ev ∈ r.events, ∃ path, ev = io_event.stat path) ∧
      io_event.glslang_start ∉ r.events ∧
      (version = 0 ∧ dump_conf = 0 → r.exit_code = -1) ∧
      (version ≠ 0 ∨ dump_conf ≠ 0 → r.exit_code = 0 ∧ r.events = []) := by
  have hstat := inputs_invalid_events rt args
  have hnostart : ∀ evs : List io_event, (∀ ev ∈ evs, ∃ path, ev = io_event.stat path) →
      io_event.glslang_start ∉ evs := by
    intro evs h hmem
    obtain ⟨path, hp⟩ := h _ hmem
    cases hp
  unfold main
  by_cases hv : version = 0
  · by_cases hd : dump_conf = 0
    · simp only [hv, hd, ne_eq, not_true_eq_false, if_false]
      by_cases hinv : (inputs_invalid rt args).1 = true
      · refine ⟨{ exit_code := -1, events := (inputs_invalid rt args).2 }, ?_, hstat,
          hnostart _ hstat, fun _ => rfl, ?_⟩
        · simp [hinv]
          rfl
        · intro h; simp at h
      · refine ⟨{ exit_code := -1, events := (inputs_invalid rt args).2 }, ?_, hstat,
          hnostart _ hstat, fun _ => rfl, ?_⟩
        · have hcs2 : args.cs_filepath.isNone = false := by
            cases h : args.cs_filepath <;> simp [h] at hcs ⊢
          simp [hinv, hcs, hcs2, hgfx]
          rfl
        · intro h; simp at h
    · refine ⟨{ exit_code := 0, events := [] }, ?_, by simp, by simp, ?_, fun _ => ⟨rfl, rfl⟩⟩
      · simp [hv, hd]
        rfl
      · intro h; exact absurd h.2 hd
  · refine ⟨{ exit_code := 0, events := [] }, ?_, by simp, by simp, ?_, fun _ => ⟨rfl, rfl⟩⟩
    · simp [hv]
      rfl
    · intro h; exact absurd h.1 hv

/-- C7 (witness). Compute and vertex stage requested without informational
flag: exit status -1 after the three probes of the input paths. -/
theorem main_rejects_compute_with_graphics_witness :
    ∃ r, main rt_plain tc_plain args_compute_vertex 0 0 = .ok r ∧
      (∀ ev ∈ r.events, ∃ path, ev = io_event.stat path) ∧
      io_event.glslang_start ∉ r.events ∧
      ((0 : Int) = 0 ∧ (0 : Int) = 0 → r.exit_code = -1) ∧
      ((0 : Int) ≠ 0 ∨ (0 : Int) ≠ 0 → r.exit_code = 0 ∧ r.events = []) :=
  main_rejects_compute_with_graphics rt_plain tc_plain args_compute_vertex 0 0 rfl (Or.inl rfl)

/-- C9 (failing input). In container mode with both stages compiled and the
container writes rejected by the disk, `sgs_commit` fails and `main` still
returns status 0. -/
theorem main_exit_zero_when_commit_fails :
    (sgs_commit rt_plain tc_disk_full.sgs_write_ok
      (sgs_add_stage_reflect
        (sgs_add_stage_code
          (sgs_add_stage_reflect
            (sgs_add_stage_code (sgs_create_file "shader.sgs" .SGS_SHADER_GLES 200)
              .SGS_STAGE_VERTEX "vs")
            .SGS_STAGE_VERTEX "\x7bvs:shader.sgs\x7d")
          .SGS_STAGE_FRAGMENT "fs")
        .SGS_STAGE_FRAGMENT "\x7bfs:shader.sgs\x7d")).1 = false ∧
    main rt_plain tc_disk_full args_sgs 0 0 =
      .ok { exit_code := 0,
            events := [.stat "a.vert", .stat "a.frag", .sgs_create "shader.sgs", .glslang_start,
              .load "a.vert", .load "a.frag", .sgs_write_failed "shader.sgs"] } :=
  ⟨rfl, rfl⟩

/-- C10 (failing input). In discrete-file mode with the explicit reflection
path `refl.json` and two stages, both reflection writes truncate the file, and
after the run it holds the document of the fragment stage alone. -/
theorem compile_files_reflect_path_truncated :
    compile_files rt_plain tc_plain none args_reflect =
      .ok { ret := 0, g_sgs := none,
            events := [.glslang_start, .load "a.vert", .load "a.frag",
              .write "shader_vs.glsl" false "vs",
              .write "refl.json" false "\x7b vs : shader_vs.glsl \x7d",
              .write "shader_fs.glsl" false "fs",
              .write "refl.json" false "\x7b fs : shader_fs.glsl \x7d"] } ∧
    file_after "refl.json" none
        [.glslang_start, .load "a.vert", .load "a.frag",
          .write "shader_vs.glsl" false "vs",
          .write "refl.json" false "\x7b vs : shader_vs.glsl \x7d",
          .write "shader_fs.glsl" false "fs",
          .write "refl.json" false "\x7b fs : shader_fs.glsl \x7d"] =
      some "\x7b fs : shader_fs.glsl \x7d" :=
  ⟨rfl, by decide⟩

/-! ## Lemmas on the binary container -/

theorem to_uint32_lt (v : Int) : to_uint32 v < 2 ^ 32 := by
  unfold to_uint32
  omega

theorem to_int_to_uint32 (v : Int) (h1 : -2 ^ 31 ≤ v) (h2 : v < 2 ^ 31) :
    to_int (to_uint32 v) = v := by
  unfold to_int to_uint32
  split <;> omega

theorem to_int_of_lt (n : Nat) (h : n < 2 ^ 31) : to_int n = (n : Int) := by
  unfold to_int
  have h2 : n % 2 ^ 32 = n := by omega
  rw [h2, if_pos h]

theorem to_uint32_natCast (n : Nat) (h : n < 2 ^ 32) : to_uint32 (n : Int) = n := by
  unfold to_uint32
  omega

theorem read_le32_le32 (v : Int) (rest : List Nat) :
    read_le32 (le32 v ++ rest) = some (to_uint32 v, rest) := by
  have h := to_uint32_lt v
  simp only [le32, List.cons_append, List.nil_append, read_le32]
  congr 2
  omega

theorem le32_length (v : Int) : (le32 v).length = 4 := rfl

theorem read_stage_bytes (e : sgs_file_stage) (rest : List Nat) :
    read_stage (e.bytes ++ rest) =
      some ({ stage := to_int (to_uint32 e.stage), code_size := to_int (to_uint32 e.code_size),
              code_offset := to_int (to_uint32 e.code_offset),
              reflect_size := to_int (to_uint32 e.reflect_size),
              reflect_offset := to_int (to_uint32 e.reflect_offset) }, rest) := by
  simp [sgs_file_stage.bytes, read_stage, read_le32_le32]

theorem byte_range_mid (bytes pre mid post : List Nat) (offset size : Int)
    (hbytes : bytes = pre ++ mid ++ post) (hoff : offset = (pre.length : Int))
    (hsize : size = (mid.length : Int)) : byte_range bytes offset size = mid := by
  subst hbytes hoff hsize
  simp [byte_range]

theorem sgs_file_stage_bytes_length (e : sgs_file_stage) : e.bytes.length = 20 := rfl

theorem sgs_file_header_bytes_length (h : sgs_file_header) : h.bytes.length = 20 := rfl

/-- C8. Adding code and reflection for the vertex and then the fragment stage
and committing to a writable path writes a file that reads back with signature
`SGS_FILE_SIG`, version `SGS_FILE_VERSION`, the language and profile given,
`num_stages = 2` and a table of two entries, vertex first; the four byte
ranges start after header and table (offset 60), follow each other in the
order vertex code, vertex reflection, fragment code, fragment reflection
without overlap, end inside the file and hold the bytes that were added. The
profile version is an `int` and the file is smaller than `2^31` bytes. -/
theorem sgs_round_trip (rt : runtime) (write_ok : String → Bool) (path : String)
    (lang : sgs_shader_lang) (profile_ver : Int) (code_v refl_v code_f refl_f : String)
    (hopen : rt.sx_file_open_writer path = true) (hwrite : write_ok path = true)
    (hprof : -2 ^ 31 ≤ profile_ver ∧ profile_ver < 2 ^ 31)
    (hsize : 60 + (c_string_bytes code_v).length + (c_string_bytes refl_v).length +
      (c_string_bytes code_f).length + (c_string_bytes refl_f).length < 2 ^ 31)
    (f : sgs_file) (bytes : List Nat)
    (hf : f = sgs_add_stage_reflect
            (sgs_add_stage_code
              (sgs_add_stage_reflect
                (sgs_add_stage_code (sgs_create_file path lang profile_ver)
                  .SGS_STAGE_VERTEX code_v)
                .SGS_STAGE_VERTEX refl_v)
              .SGS_STAGE_FRAGMENT code_f)
            .SGS_STAGE_FRAGMENT refl_f)
    (hbytes : bytes = sgs_file_bytes f) :
    sgs_commit rt write_ok f = (true, { f with committed := true }, [.sgs_write path bytes]) ∧
    ∃ (ev ef : sgs_file_stage),
      sgs_read bytes =
        some ({ sig := SGS_FILE_SIG, version := SGS_FILE_VERSION, lang := lang.toInt,
                profile_ver := profile_ver, num_stages := 2 }, [ev, ef]) ∧
      ev.stage = sgs_shader_stage.SGS_STAGE_VERTEX.toInt ∧
      ef.stage = sgs_shader_stage.SGS_STAGE_FRAGMENT.toInt ∧
      0 ≤ ev.code_size ∧ 0 ≤ ev.reflect_size ∧ 0 ≤ ef.code_size ∧ 0 ≤ ef.reflect_size ∧
      (sizeof_sgs_file_header + 2 * sizeof_sgs_file_stage : Int) ≤ ev.code_offset ∧
      ev.code_offset + ev.code_size ≤ ev.reflect_offset ∧
      ev.reflect_offset + ev.reflect_size ≤ ef.code_offset ∧
      ef.code_offset + ef.code_size ≤ ef.reflect_offset ∧
      ef.reflect_offset + ef.reflect_size ≤ (bytes.length : Int) ∧
      byte_range bytes ev.code_offset ev.code_size = c_string_bytes code_v ∧
      byte_range bytes ev.reflect_offset ev.reflect_size = c_string_bytes refl_v ∧
      byte_range bytes ef.code_offset ef.code_size = c_string_bytes code_f ∧
      byte_range bytes ef.reflect_offset ef.reflect_size = c_string_bytes refl_f := by
  generalize hcv : c_string_bytes code_v = cv at hsize
  generalize hrv : c_string_bytes refl_v = rv at hsize
  generalize hcf : c_string_bytes code_f = cf at hsize
  generalize hrf : c_string_bytes refl_f = rf at hsize
  have hf2 : sgs_add_stage_reflect
            (sgs_add_stage_code
              (sgs_add_stage_reflect
                (sgs_add_stage_code (sgs_create_file path lang profile_ver)
                  .SGS_STAGE_VERTEX code_v)
                .SGS_STAGE_VERTEX refl_v)
              .SGS_STAGE_FRAGMENT code_f)
            .SGS_STAGE_FRAGMENT refl_f =
      { filepath := path, lang := lang, profile_ver := profile_ver,
        stages := [{ stage := .SGS_STAGE_VERTEX, code := cv, reflect := rv },
                   { stage := .SGS_STAGE_FRAGMENT, code := cf, reflect := rf }],
        committed := false } := by
    simp [sgs_add_stage_reflect, sgs_add_stage_code, sgs_create_file, sgs_update_stage, hcv, hrv,
      hcf, hrf]
  rw [hf2] at hf
  subst hf
  have hpow : (2 : Nat) ^ 31 = 2147483648 := by norm_num
  rw [hpow] at hsize
  have htable : sgs_stage_table
      [{ stage := .SGS_STAGE_VERTEX, code := cv, reflect := rv },
       { stage := .SGS_STAGE_FRAGMENT, code := cf, reflect := rf }]
      (sizeof_sgs_file_header + 2 * sizeof_sgs_file_stage) =
      [{ stage := 0, code_size := cv.length, code_offset := 60, reflect_size := rv.length,
         reflect_offset := ((60 + cv.length : Nat) : Int) },
       { stage := 1, code_size := cf.length,
         code_offset := ((60 + cv.length + rv.length : Nat) : Int),
         reflect_size := rf.length,
         reflect_offset := ((60 + cv.length + rv.length + cf.length : Nat) : Int) }] := by
    simp only [sgs_stage_table, sizeof_sgs_file_header, sizeof_sgs_file_stage,
      sgs_shader_stage.toInt]
    rw [to_int_of_lt cv.length (by omega), to_int_of_lt rv.length (by omega),
      to_int_of_lt cf.length (by omega), to_int_of_lt rf.length (by omega),
      to_int_of_lt (20 + 2 * 20) (by omega), to_int_of_lt (20 + 2 * 20 + cv.length) (by omega),
      to_int_of_lt (20 + 2 * 20 + cv.length + rv.length) (by omega),
      to_int_of_lt (20 + 2 * 20 + cv.length + rv.length + cf.length) (by omega)]
    rfl
  have hlayout : sgs_file_bytes
      { filepath := path, lang := lang, profile_ver := profile_ver,
        stages := [{ stage := .SGS_STAGE_VERTEX, code := cv, reflect := rv },
                   { stage := .SGS_STAGE_FRAGMENT, code := cf, reflect := rf }],
        committed := false } =
      ({ sig := SGS_FILE_SIG, version := SGS_FILE_VERSION, lang := lang.toInt,
         profile_ver := profile_ver, num_stages := 2 } : sgs_file_header).bytes ++
      (({ stage := 0, code_size := cv.length, code_offset := 60, reflect_size := rv.length,
          reflect_offset := ((60 + cv.length : Nat) : Int) } : sgs_file_stage).bytes ++
       (({ stage := 1, code_size := cf.length,
           code_offset := ((60 + cv.length + rv.length : Nat) : Int),
           reflect_size := rf.length,
           reflect_offset := ((60 + cv.length + rv.length + cf.length : Nat) : Int) } :
           sgs_file_stage).bytes ++
        (cv ++ (rv ++ (cf ++ rf))))) := by
    have h2 : to_int 2 = 2 := by decide
    simp only [sgs_file_bytes, List.length_cons, List.length_nil, Nat.zero_add, Nat.reduceAdd,
      htable, h2, List.map_cons, List.map_nil, List.flatten_cons, List.flatten_nil, sgs_payload,
      List.append_assoc, List.append_nil]
  rw [hlayout] at hbytes
  refine ⟨?_,
    { stage := 0, code_size := cv.length, code_offset := 60, reflect_size := rv.length,
      reflect_offset := ((60 + cv.length : Nat) : Int) },
    { stage := 1, code_size := cf.length,
      code_offset := ((60 + cv.length + rv.length : Nat) : Int),
      reflect_size := rf.length,
      reflect_offset := ((60 + cv.length + rv.length + cf.length : Nat) : Int) },
    ?_, rfl, rfl, ?_⟩
  · simp [sgs_commit, hopen, hwrite, hbytes, hlayout]
  · rw [hbytes]
    have hsig : to_uint32 (SGS_FILE_SIG : Int) = SGS_FILE_SIG := by decide
    have hver : to_int (to_uint32 SGS_FILE_VERSION) = SGS_FILE_VERSION := by decide
    have hlang : to_int (to_uint32 lang.toInt) = lang.toInt := by cases lang <;> decide
    have hprofile : to_int (to_uint32 profile_ver) = profile_ver :=
      to_int_to_uint32 profile_ver hprof.1 hprof.2
    have hnum : to_int (to_uint32 2) = 2 := by decide
    have h2 : (2 : Int).toNat = 2 := rfl
    simp [sgs_read, sgs_file_header.bytes, read_le32_le32, hsig, hver, hlang, hprofile, hnum,
      h2, read_stages, read_stage_bytes]
    refine ⟨⟨?_, ?_, ?_, ?_, ?_⟩, ?_, ?_, ?_, ?_, ?_⟩ <;> apply to_int_to_uint32 <;> omega
  · have hlen : bytes.length = 60 + cv.length + rv.length + cf.length + rf.length := by
      rw [hbytes]
      simp only [List.length_append, sgs_file_header_bytes_length, sgs_file_stage_bytes_length]
      omega
    obtain ⟨H, hHlen, hB⟩ : ∃ H : List Nat, H.length = 60 ∧
        bytes = H ++ (cv ++ (rv ++ (cf ++ rf))) := by
      rw [← List.append_assoc, ← List.append_assoc] at hbytes
      refine ⟨_, ?_, hbytes⟩
      simp only [List.length_append, sgs_file_header_bytes_length, sgs_file_stage_bytes_length]
    simp only [sizeof_sgs_file_header, sizeof_sgs_file_stage]
    refine ⟨by omega, by omega, by omega, by omega, by omega, by omega, by omega, by omega,
      by omega, ?_, ?_, ?_, ?_⟩
    · exact byte_range_mid bytes H cv (rv ++ (cf ++ rf)) _ _
        (by rw [hB]; simp only [List.append_assoc]) (by rw [hHlen]; rfl) rfl
    · exact byte_range_mid bytes (H ++ cv) rv (cf ++ rf) _ _
        (by rw [hB]; simp only [List.append_assoc]) (by rw [List.length_append, hHlen]) rfl
    · exact byte_range_mid bytes (H ++ cv ++ rv) cf rf _ _
        (by rw [hB]; simp only [List.append_assoc])
        (by rw [List.length_append, List.length_append, hHlen]) rfl
    · exact byte_range_mid bytes (H ++ cv ++ rv ++ cf) rf [] _ _
        (by rw [hB]; simp only [List.append_assoc, List.append_nil])
        (by rw [List.length_append, List.length_append, List.length_append, hHlen]) rfl

/-- C8 (witness). The container of the vertex code `vs` and the fragment code
`fs` with their reflection texts reads back with two table entries. -/
theorem sgs_round_trip_witness :
    sgs_commit rt_plain (fun _ => true)
        (sgs_add_stage_reflect
          (sgs_add_stage_code
            (sgs_add_stage_reflect
              (sgs_add_stage_code (sgs_create_file "shader.sgs" .SGS_SHADER_GLES 200)
                .SGS_STAGE_VERTEX "vs")
              .SGS_STAGE_VERTEX "\x7bvs\x7d")
            .SGS_STAGE_FRAGMENT "fs")
          .SGS_STAGE_FRAGMENT "\x7bfs\x7d") =
      (true,
        { sgs_add_stage_reflect
          (sgs_add_stage_code
            (sgs_add_stage_reflect
              (sgs_add_stage_code (sgs_create_file "shader.sgs" .SGS_SHADER_GLES 200)
                .SGS_STAGE_VERTEX "vs")
              .SGS_STAGE_VERTEX "\x7bvs\x7d")
            .SGS_STAGE_FRAGMENT "fs")
          .SGS_STAGE_FRAGMENT "\x7bfs\x7d" with committed := true },
        [.sgs_write "shader.sgs"
          (sgs_file_bytes
            (sgs_add_stage_reflect
              (sgs_add_stage_code
                (sgs_add_stage_reflect
                  (sgs_add_stage_code (sgs_create_file "shader.sgs" .SGS_SHADER_GLES 200)
                    .SGS_STAGE_VERTEX "vs")
                  .SGS_STAGE_VERTEX "\x7bvs\x7d")
                .SGS_STAGE_FRAGMENT "fs")
              .SGS_STAGE_FRAGMENT "\x7bfs\x7d"))]) :=
  (sgs_round_trip rt_plain (fun _ => true) "shader.sgs" .SGS_SHADER_GLES 200 "vs" "\x7bvs\x7d" "fs" "\x7bfs\x7d"
    rfl rfl (by decide) (by decide) _ _ rfl rfl).1

/-! ## Properties of the option parsers -/

theorem parse_defines_loop_at_end (trim : String → String) (fuel : Nat) (defines : List p_define) :
    parse_defines_loop trim fuel [] defines = none := by
  induction fuel with
  | zero => rfl
  | succ fuel ih => simpa [parse_defines_loop, sx_skip_whitespace] using ih

theorem parse_includes_loop_at_end (trim : String → String) (fuel : Nat) (dirs : List String) :
    parse_includes_loop trim fuel [] dirs = none := by
  induction fuel with
  | zero => rfl
  | succ fuel ih => simpa [parse_includes_loop, sx_skip_whitespace] using ih

/-- C17 (failing input). For the argument `a;b;c` the loop of `parse_includes`
ends after its first iteration, whatever the number of iterations allowed, and
only the directory `a` is registered. -/
theorem parse_includes_registers_first_only (fuel : Nat) :
    parse_includes trim_all (fuel + 1) args_discrete "a;b;c" =
      some { args_discrete with includer := ["a"] } := by
  rfl

/-- C19 (failing inputs). On the empty string, on a string of blanks and on
`A,` the loops of `parse_defines` and of `parse_includes` are still running
after any number of iterations. -/
theorem parse_loops_do_not_end (trim : String → String) (fuel : Nat) (args : cmd_args) :
    parse_defines trim fuel args "" = none ∧
    parse_defines trim fuel args "  " = none ∧
    parse_defines trim fuel args "A," = none ∧
    parse_includes trim fuel args "" = none ∧
    parse_includes trim fuel args "  " = none ∧
    parse_includes trim fuel args "A," = none := by
  have hd := parse_defines_loop_at_end trim
  have hi := parse_includes_loop_at_end trim
  have hblank : sx_skip_whitespace [' ', ' '] = [] := by decide
  have hA : sx_skip_whitespace ['A', ','] = ['A', ','] := by decide
  refine ⟨?_, ?_, ?_, ?_, ?_, ?_⟩
  · simp [parse_defines, show "".toList = [] from rfl, hd]
  · cases fuel with
    | zero => rfl
    | succ fuel => simp [parse_defines, parse_defines_loop, hblank, hd]
  · cases fuel with
    | zero => rfl
    | succ fuel =>
      simp [parse_defines, parse_defines_loop, hA, sx_strchar, hd]
  · simp [parse_includes, show "".toList = [] from rfl, hi]
  · cases fuel with
    | zero => rfl
    | succ fuel => simp [parse_includes, parse_includes_loop, hblank, hi]
  · cases fuel with
    | zero => rfl
    | succ fuel =>
      simp [parse_includes, parse_includes_loop, hA, sx_strchar, hi]

/-- On a list without trailing separator the loop of `parse_defines` ends: two
iterations for two definitions. -/
theorem parse_defines_two_items (fuel : Nat) :
    parse_defines trim_all (fuel + 2) args_discrete "A=1, B" =
      some { args_discrete with
        defines := [{ defn := "A", val := some "1" }, { defn := "B", val := none }] } := by
  rfl

/-- With commas the loop of `parse_includes` advances, and the first item runs
to the end of the string because no `;` ends it. -/
theorem parse_includes_comma_list (fuel : Nat) :
    parse_includes trim_all (fuel + 2) args_discrete "a,b" =
      some { args_discrete with includer := ["a,b", "b"] } := by
  rfl

/-! ## Properties of the reflection document -/

/-- Outside the storage-buffer category every resource of the list yields a
record, so a category array is as long as the backend list. -/
theorem output_resource_info_length (compiler : Compiler) (res_type : resource_type)
    (hrt : res_type ≠ .RES_TYPE_SSBO) :
    ∀ (ress : List Resource) (records : List sjson_object),
      output_resource_info compiler ress res_type = .ok records → records.length = ress.length := by
  intro ress
  induction ress with
  | nil =>
    intro records h
    injection h with h
    subst h
    rfl
  | cons res rest ih =>
    intro records h
    simp only [output_resource_info, bind, Except.bind] at h
    cases h1 : output_resource compiler res res_type with
    | error e => rw [h1] at h; cases h
    | ok r =>
      rw [h1] at h
      cases h2 : output_resource_info compiler rest res_type with
      | error e => rw [h2] at h; cases h
      | ok rs =>
        rw [h2] at h
        have hlen := ih rs h2
        cases r with
        | none =>
          simp [output_resource, hrt] at h1
          cases hs : record_semantic res_type (loc compiler res res_type) with
          | error e => simp [hs, bind, Except.bind] at h1
          | ok v => simp [hs, bind, Except.bind, pure, Except.pure] at h1
        | some jres =>
          injection h with h
          subst h
          simp [hlen]

/-- C12 (failing input). A listing whose only storage buffer is an HLSL
counter buffer gives a document with the key `storage_buffers` and an empty
sequence under it. -/
theorem output_reflection_empty_storage_buffers :
    ress_counter.storage_buffers.length = 1 ∧
    output_resource_info compiler_counter ress_counter.storage_buffers .RES_TYPE_SSBO = .ok [] ∧
    output_reflection args_discrete compiler_counter ress_counter "shader_fs.glsl"
        .EShLangFragment =
      .ok { language := "gles", profile_version := 0, stage_name := "fs",
            file := "shader_fs.glsl", groups := [("storage_buffers", [])] } :=
  ⟨rfl, rfl, rfl⟩

/-- C13 (counterexample). The first four bytes a container starts with are
`0x31 0x53 0x47 0x53`, the characters `1`, `S`, `G`, `S`; byte 0 is not `S`. -/
theorem sgs_signature_bytes_reversed :
    (sgs_file_bytes (sgs_create_file "shader.sgs" .SGS_SHADER_GLES 200)).take 4 =
      ['1', 'S', 'G', 'S'].map Char.toNat ∧
    (sgs_file_bytes (sgs_create_file "shader.sgs" .SGS_SHADER_GLES 200)).take 4 ≠
      ['S', 'G', 'S', '1'].map Char.toNat := by
  constructor
  · decide
  · decide

/-- C13 (amended). A packed header is 20 bytes holding, in this order, the
4-byte little-endian fields signature, version, language, profile version and
stage count; a packed stage-table entry is 20 bytes; the signature
`SGS_FILE_SIG` is stored as the bytes of `1`, `S`, `G`, `S` (the characters of
`SGS1` in reverse order), the version `SGS_FILE_VERSION` as `100 0 0 0`, and
every container file begins with these eight bytes. -/
theorem sgs_header_layout (h : sgs_file_header) (e : sgs_file_stage) (f : sgs_file) :
    h.bytes.length = 20 ∧ e.bytes.length = 20 ∧
    h.bytes.take 4 = le32 h.sig ∧
    (h.bytes.drop 4).take 4 = le32 h.version ∧
    (h.bytes.drop 8).take 4 = le32 h.lang ∧
    (h.bytes.drop 12).take 4 = le32 h.profile_ver ∧
    (h.bytes.drop 16).take 4 = le32 h.num_stages ∧
    le32 SGS_FILE_SIG = ['1', 'S', 'G', 'S'].map Char.toNat ∧
    le32 SGS_FILE_VERSION = [100, 0, 0, 0] ∧
    SGS_FILE_VERSION = 100 ∧
    (sgs_file_bytes f).take 8 = ['1', 'S', 'G', 'S'].map Char.toNat ++ [100, 0, 0, 0] := by
  refine ⟨rfl, rfl, rfl, rfl, rfl, rfl, rfl, by decide, by decide, rfl, ?_⟩
  simp only [sgs_file_bytes, sgs_file_header.bytes, List.append_assoc]
  have h1 : le32 (SGS_FILE_SIG : Int) = [49, 83, 71, 83] := by decide
  have h2 : le32 SGS_FILE_VERSION = [100, 0, 0, 0] := by decide
  rw [h1, h2]
  rfl

/-! ## Optional members of a record -/

/-- A member other than the semantic pair and the counter id is found in the
head of the record. -/
theorem sjson_find_in_head (compiler : Compiler) (res : Resource) (res_type : resource_type)
    (jres : sjson_object) (key : String)
    (h : output_resource compiler res res_type = .ok (some jres))
    (h1 : key ≠ "semantic") (h2 : key ≠ "semantic_index") (h3 : key ≠ "hlsl_counter_buffer_id") :
    sjson_find jres key = sjson_find (record_head compiler res res_type) key := by
  obtain ⟨semantic, hs, rfl⟩ := output_resource_ok compiler res res_type jres h
  rw [sjson_find_append, sjson_find_append, record_semantic_keys res_type _ semantic key hs h1 h2,
    record_tail_keys compiler res res_type key h3]
  simp

theorem record_head_location (compiler : Compiler) (res : Resource) (res_type : resource_type) :
    sjson_find (record_head compiler res res_type) "location" =
      if mask compiler res res_type DecorationLocation = true then
        some (.int (loc compiler res res_type)) else none := by
  simp +decide only [record_head, List.cons_append, List.nil_append, sjson_find_cons,
    sjson_find_nil, sjson_find_append, sjson_find_put_if]
  simp +decide

theorem record_head_set (compiler : Compiler) (res : Resource) (res_type : resource_type) :
    sjson_find (record_head compiler res res_type) "set" =
      if mask compiler res res_type DecorationDescriptorSet = true then
        some (.int (to_int (compiler.get_decoration res.id DecorationDescriptorSet)))
      else none := by
  simp +decide only [record_head, List.cons_append, List.nil_append, sjson_find_cons,
    sjson_find_nil, sjson_find_append, sjson_find_put_if]
  simp +decide

theorem record_head_binding (compiler : Compiler) (res : Resource) (res_type : resource_type) :
    sjson_find (record_head compiler res res_type) "binding" =
      if mask compiler res res_type DecorationBinding = true then
        some (.int (to_int (compiler.get_decoration res.id DecorationBinding)))
      else none := by
  simp +decide only [record_head, List.cons_append, List.nil_append, sjson_find_cons,
    sjson_find_nil, sjson_find_append, sjson_find_put_if]
  simp +decide

theorem record_head_attachment (compiler : Compiler) (res : Resource) (res_type : resource_type) :
    sjson_find (record_head compiler res res_type) "attachment" =
      if mask compiler res res_type DecorationInputAttachmentIndex = true then
        some (.int (to_int (compiler.get_decoration res.id DecorationInputAttachmentIndex)))
      else none := by
  simp +decide only [record_head, List.cons_append, List.nil_append, sjson_find_cons,
    sjson_find_nil, sjson_find_append, sjson_find_put_if]
  simp +decide

theorem record_head_writeonly (compiler : Compiler) (res : Resource) (res_type : resource_type) :
    sjson_find (record_head compiler res res_type) "writeonly" =
      if mask compiler res res_type DecorationNonReadable = true then some (.bool true)
      else none := by
  simp +decide only [record_head, List.cons_append, List.nil_append, sjson_find_cons,
    sjson_find_nil, sjson_find_append, sjson_find_put_if]
  simp +decide

theorem record_head_readonly (compiler : Compiler) (res : Resource) (res_type : resource_type) :
    sjson_find (record_head compiler res res_type) "readonly" =
      if mask compiler res res_type DecorationNonWritable = true then some (.bool true)
      else none := by
  simp +decide only [record_head, List.cons_append, List.nil_append, sjson_find_cons,
    sjson_find_nil, sjson_find_append, sjson_find_put_if]
  simp +decide

theorem record_head_array (compiler : Compiler) (res : Resource) (res_type : resource_type) :
    sjson_find (record_head compiler res res_type) "array" =
      if (compiler.get_type res.type_id).array.isEmpty = false then
        some (.int (arr_sz (compiler.get_type res.type_id).array)) else none := by
  simp +decide only [record_head, List.cons_append, List.nil_append, sjson_find_cons,
    sjson_find_nil, sjson_find_append, sjson_find_put_if]
  simp +decide

theorem isSome_ite_some {α : Type} (c : Bool) (v : α) :
    (if c = true then some v else none).isSome = c := by
  cases c <;> rfl

/-- Loop body: in the record of a resource each optional member is present exactly when
its decoration bit is set in the mask: `location` with Location, `set` with
DescriptorSet, `binding` with Binding, `attachment` with InputAttachmentIndex,
`writeonly` with NonReadable, `readonly` with NonWritable; the mask is the
buffer-block flags of the resource for the storage-buffer category and its
decoration bitset for every other category. -/
theorem output_resource_decorations (compiler : Compiler) (res : Resource)
    (res_type : resource_type) (jres : sjson_object) (m : Nat → Bool)
    (h : output_resource compiler res res_type = .ok (some jres))
    (hm : m = if res_type = .RES_TYPE_SSBO then compiler.get_buffer_block_flags res.id
              else compiler.get_decoration_bitset res.id) :
    (sjson_find jres "location").isSome = m DecorationLocation ∧
    (sjson_find jres "set").isSome = m DecorationDescriptorSet ∧
    (sjson_find jres "binding").isSome = m DecorationBinding ∧
    (sjson_find jres "attachment").isSome = m DecorationInputAttachmentIndex ∧
    (sjson_find jres "writeonly").isSome = m DecorationNonReadable ∧
    (sjson_find jres "readonly").isSome = m DecorationNonWritable := by
  have hmask : mask compiler res res_type = m := by
    rw [hm]
    rfl
  rw [sjson_find_in_head compiler res res_type jres "location" h (by decide) (by decide) (by decide),
    sjson_find_in_head compiler res res_type jres "set" h (by decide) (by decide) (by decide),
    sjson_find_in_head compiler res res_type jres "binding" h (by decide) (by decide) (by decide),
    sjson_find_in_head compiler res res_type jres "attachment" h (by decide) (by decide)
      (by decide),
    sjson_find_in_head compiler res res_type jres "writeonly" h (by decide) (by decide) (by decide),
    sjson_find_in_head compiler res res_type jres "readonly" h (by decide) (by decide) (by decide),
    record_head_location, record_head_set, record_head_binding, record_head_attachment,
    record_head_writeonly, record_head_readonly, hmask]
  exact ⟨isSome_ite_some _ _, isSome_ite_some _ _, isSome_ite_some _ _, isSome_ite_some _ _,
    isSome_ite_some _ _, isSome_ite_some _ _⟩

/-! ## Array extent -/

theorem to_int_mod (a : Nat) : to_int (a % 2 ^ 32) = to_int a := by
  unfold to_int
  simp

theorem arr_sz_step (a x : Nat) :
    to_int (to_uint32 (to_int a + ((x % 2 ^ 32 : Nat) : Int))) = to_int (a + x) := by
  unfold to_int to_uint32
  split <;> split <;> omega

theorem arr_sz_foldl (dims : List Nat) :
    ∀ a : Nat, dims.foldl (fun acc arr => to_int (to_uint32 (acc + (arr % 2 ^ 32 : Nat))))
      (to_int a) = to_int (a + dims.sum) := by
  induction dims with
  | nil => intro a; simp
  | cons x rest ih =>
    intro a
    simp only [List.foldl_cons, List.sum_cons]
    rw [arr_sz_step, ih, Nat.add_assoc]

theorem arr_sz_eq (dims : List Nat) : arr_sz dims = to_int dims.sum := by
  have h := arr_sz_foldl dims 0
  have h0 : to_int 0 = 0 := by decide
  rw [h0, Nat.zero_add] at h
  exact h

/-- Loop body: in the record of a resource the member `array` is present exactly when
the type of the resource has at least one array dimension; its value is then
the sum of the extents as the code adds them up (in 32-bit arithmetic, put as
`int`), which is the sum itself whenever that is below `2^31`; the dimensions
`[2, 3]` give 5. -/
theorem output_resource_array (compiler : Compiler) (res : Resource)
    (res_type : resource_type) (jres : sjson_object)
    (h : output_resource compiler res res_type = .ok (some jres)) :
    ((sjson_find jres "array").isSome = true ↔ (compiler.get_type res.type_id).array ≠ []) ∧
    ((compiler.get_type res.type_id).array ≠ [] →
      sjson_find jres "array" =
        some (.int (to_int (compiler.get_type res.type_id).array.sum))) ∧
    ((compiler.get_type res.type_id).array ≠ [] →
      (compiler.get_type res.type_id).array.sum < 2 ^ 31 →
      sjson_find jres "array" =
        some (.int ((compiler.get_type res.type_id).array.sum : Nat))) ∧
    to_int ([2, 3] : List Nat).sum = 5 := by
  rw [sjson_find_in_head compiler res res_type jres "array" h (by decide) (by decide) (by decide),
    record_head_array, arr_sz_eq]
  have h5 : to_int 5 = 5 := by decide
  cases hd : (compiler.get_type res.type_id).array with
  | nil => simp [h5]
  | cons x rest =>
    refine ⟨by simp, fun _ => by simp, fun _ hlt => ?_, by decide⟩
    rw [to_int_of_lt _ hlt]
    simp

/-! ## Reflection output of the router -/

theorem output_reflection_file (args : cmd_args) (compiler : Compiler) (ress : ShaderResources)
    (filename : String) (stage : EShLanguage) (doc : reflect_document)
    (h : output_reflection args compiler ress filename stage = .ok doc) :
    doc.file = filename ∧ doc.stage_name = get_stage_name stage := by
  unfold output_reflection at h
  simp only [bind, Except.bind] at h
  repeat' split at h
  all_goals cases h
  exact ⟨rfl, rfl⟩

theorem refl_suffix_ne_empty (name : String) : name ++ "_refl" ≠ "" := by
  intro h
  have h2 := congrArg String.length h
  simp [String.length_append] at h2
  exact absurd h2.2 (by decide)

theorem write_file_cvar_string (rt : runtime) (filepath data name : String) (append : Bool)
    (hname : name ≠ "") (hopen : rt.sx_file_open_writer filepath = true) :
    write_file rt filepath data (some name) append (-1) =
      .ok (true, [.write filepath append
        ((if append then "" else file_header) ++ array_decl name (sx_strlen data + 1) ++
          String.join (hex_chunks rt data (sx_strlen data + 1)) ++ "\n")]) := by
  have hl : write_file_len data (-1) = sx_strlen data + 1 := by
    simp [write_file_len]
  have hw := write_file_cvar rt filepath data name append (-1) hname hopen
    (by rw [hl]; have := sx_strlen_le data; omega)
  rw [hl] at hw
  exact hw

set_option maxRecDepth 8192 in
/-- C11 (counterexample). In byte-array mode with the explicit reflection path
`refl.h`, the reflection array of the vertex stage is written to `refl.h` by a
truncating write, not appended to the output file `basic.h`. -/
theorem cross_compile_cvar_reflect_path_elsewhere :
    cross_compile rt_plain tc_plain none args_cvar_reflect_path .EShLangVertex 0 =
      .ok { ret := 0, g_sgs := none,
            events := [
              .write "basic.h" false
                (file_header ++
                  "static const unsigned char basic_vs[3] = \x7b\n\t0x76, 0x73, 0x00 \x7d;\n\n"),
              .write "refl.h" false
                (file_header ++
                  "static const unsigned char basic_vs_refl[13] = \x7b\n\t" ++
                  "0x7b, 0x76, 0x73, 0x3a, 0x62, 0x61, 0x73, 0x69, 0x63, 0x2e, 0x68, 0x7d, " ++
                  "0x00 \x7d;\n\n")] } := by
  rfl

theorem write_file_array_text (rt : runtime) (filepath data name : String) (append : Bool)
    (hname : name ≠ "") (hopen : rt.sx_file_open_writer filepath = true) :
    write_file rt filepath data (some name) append (-1) =
      .ok (true, [.write filepath append (array_text rt name data append)]) :=
  write_file_cvar_string rt filepath data name append hname hopen

/-- C18 (counterexample). The fragment stage compiled from `a.frag` gets a
reflection document whose `file` member is `shader_fs.glsl`, the path its code
is written to. -/
theorem reflection_file_is_not_source_name :
    gather_files args_reflect =
      [{ stage := .EShLangVertex, filename := "a.vert" },
       { stage := .EShLangFragment, filename := "a.frag" }] ∧
    output_reflection args_reflect compiler_empty ress_empty "shader_fs.glsl" .EShLangFragment =
      .ok { language := "gles", profile_version := 0, stage_name := "fs",
            file := "shader_fs.glsl", groups := [] } ∧
    cross_compile rt_plain tc_plain none args_reflect .EShLangFragment 1 =
      .ok { ret := 0, g_sgs := none,
            events := [.write "shader_fs.glsl" false "fs",
              .write "refl.json" false
                (rt_plain.sjson_stringify
                  { language := "gles", profile_version := 0, stage_name := "fs",
                    file := "shader_fs.glsl", groups := [] })] } :=
  ⟨rfl, rfl, rfl⟩

/-- C18 (amended). The `file` member of a stage's reflection document is the
file name `cross_compile` passes to `output_reflection`, which is an output
path and not the source file name: in container mode the configured output
path, otherwise the path the code of the stage is written to, that is the
configured output path in byte-array mode and the derived per-stage path
`b ++ "_" ++ short(stage) ++ e` in discrete-file mode. -/
theorem reflection_file_is_output_path (rt : runtime) (tc : toolchain) (args : cmd_args)
    (stage : EShLanguage) (file_index : Int) (out : backend_output) (path : String)
    (hlang : args.lang ≠ .SHADER_LANG_COUNT)
    (hcompile : tc.compile args stage = .ok out)
    (hpath : args.out_filepath = some path) :
    (∀ f r, cross_compile rt tc (some f) args stage file_index = .ok r →
      ∃ doc, output_reflection args out.compiler out.ress path stage = .ok doc ∧
        doc.file = path ∧
        r.g_sgs = some (sgs_add_stage_reflect (sgs_add_stage_code f (sstage_of stage) out.code)
          (sstage_of stage) (rt.sjson_encode doc))) ∧
    (∀ r, cross_compile rt tc none args stage file_index = .ok r → r.ret = 0 →
      args.reflect ≠ 0 →
      ∃ fp doc ev1 ev2 rp name append,
        code_filepath rt args stage = .ok fp ∧
        output_reflection args out.compiler out.ress fp stage = .ok doc ∧
        doc.file = fp ∧
        write_file rt rp
          (if (cvar_code args stage).isEmpty then rt.sjson_stringify doc else rt.sjson_encode doc)
          (some name) append (-1) = .ok (true, ev2) ∧
        r.events = ev1 ++ ev2) ∧
    (∀ B, args.cvar = some B → B ≠ "" → code_filepath rt args stage = .ok path) ∧
    (∀ b e, (args.cvar = none ∨ args.cvar = some "") →
      rt.sx_os_path_splitext 32 512 path = (e, b) →
      code_filepath rt args stage = .ok (b ++ "_" ++ get_stage_name stage ++ e)) := by
  have hemp : ("" : String).isEmpty = true := rfl
  refine ⟨?_, ?_, ?_, ?_⟩
  · intro f r hr
    have hstart : cross_compile rt tc (some f) args stage file_index =
        cross_compile_sgs rt f args out stage := by
      simp [cross_compile, hlang, hcompile]
    rw [hstart] at hr
    simp only [cross_compile_sgs, hpath, deref, bind, Except.bind, pure, Except.pure] at hr
    cases hdoc : output_reflection args out.compiler out.ress path stage with
    | error err => rw [hdoc] at hr; cases hr
    | ok doc =>
      rw [hdoc] at hr
      injection hr with hr
      subst hr
      exact ⟨doc, rfl, (output_reflection_file _ _ _ _ _ _ hdoc).1, rfl⟩
  · intro r hr hret hrefl
    have hstart : cross_compile rt tc none args stage file_index =
        cross_compile_files rt args out stage file_index := by
      simp [cross_compile, hlang, hcompile]
    rw [hstart] at hr
    simp only [cross_compile_files, bind, Except.bind, pure, Except.pure] at hr
    cases hfp : code_filepath rt args stage with
    | error err => rw [hfp] at hr; cases hr
    | ok fp =>
      rw [hfp] at hr
      simp only at hr
      cases hw1 : write_file rt fp out.code (some (cvar_code args stage))
          (!(cvar_code args stage).isEmpty && decide (file_index > 0)) (-1) with
      | error err => rw [hw1] at hr; cases hr
      | ok v1 =>
        obtain ⟨ok1, ev1⟩ := v1
        rw [hw1] at hr
        simp only at hr
        cases ok1 with
        | false =>
          simp at hr
          subst hr
          simp at hret
        | true =>
          simp only [Bool.not_true, Bool.false_eq_true, if_false, if_pos hrefl] at hr
          cases hdoc : output_reflection args out.compiler out.ress fp stage with
          | error err => rw [hdoc] at hr; cases hr
          | ok doc =>
            rw [hdoc] at hr
            simp only at hr
            split at hr
            · cases hr
            · rename_i v2 hw2
              obtain ⟨ok2, ev2⟩ := v2
              cases ok2 with
              | false =>
                simp at hr
                subst hr
                simp at hret
              | true =>
                simp at hr
                subst hr
                exact ⟨fp, doc, ev1, ev2, _, _, _, rfl,  hdoc,
                  (output_reflection_file _ _ _ _ _ _ hdoc).1, hw2, rfl⟩
  · intro B hcvar hB
    have hBe : B.isEmpty = false := isEmpty_eq_false_of_ne B hB
    simp [code_filepath, hpath, deref, hcvar, hBe]
    rfl
  · intro b e hcvar hsplit
    rcases hcvar with h | h <;> simp [code_filepath, hpath, deref, h, hsplit, hemp] <;> rfl

/-- C18 (witness). In discrete-file mode the fragment stage's document names
the derived path `shader_fs.glsl`. -/
theorem reflection_file_is_output_path_witness :
    code_filepath rt_plain args_reflect .EShLangFragment = .ok "shader_fs.glsl" :=
  (reflection_file_is_output_path rt_plain tc_plain args_reflect .EShLangFragment 1
    { compiler := compiler_empty, ress := ress_empty, code := "fs" } "shader.glsl"
    (by decide) rfl rfl).2.2.2 "shader" ".glsl" (Or.inl rfl) rfl

/-! ## Literals of the byte array -/

/-- C20 (failing input). With signed `char` the byte `0x80` is written as the
literal `0xffffff80`, eight hexadecimal digits of value 4286578560; with
unsigned `char` the same byte is written as `0x80`. -/
theorem write_file_signed_char_literal :
    byte_value rt_plain data_0x80 0 = -128 ∧
    fmt_02x (byte_value rt_plain data_0x80 0) = "ffffff80" ∧
    write_file rt_plain "out.h" data_0x80 (some "v") true (-1) =
      .ok (true, [.write "out.h" true
        "static const unsigned char v[2] = \x7b\n\t0xffffff80, 0x00 \x7d;\n\n"]) ∧
    write_file rt_unsigned "out.h" data_0x80 (some "v") true (-1) =
      .ok (true, [.write "out.h" true
        "static const unsigned char v[2] = \x7b\n\t0x80, 0x00 \x7d;\n\n"]) :=
  ⟨rfl, rfl, rfl, rfl⟩

set_option maxRecDepth 8192 in
/-- C14 (failing input). For a text of 15 characters the array has 16 bytes;
after the final literal and its closing brace the code writes a line break and
a tab before the last line feed. -/
theorem write_file_sixteen_bytes_tail :
    write_file rt_plain "out.h" "ABCDEFGHIJKLMNO" (some "v") true (-1) =
      .ok (true, [.write "out.h" true
        ("static const unsigned char v[16] = \x7b\n\t" ++
         "0x41, 0x42, 0x43, 0x44, 0x45, 0x46, 0x47, 0x48, " ++
         "0x49, 0x4a, 0x4b, 0x4c, 0x4d, 0x4e, 0x4f, 0x00 \x7d;\n" ++ "\n\t" ++ "\n")]) := by
  rfl

theorem fmt_02x_length_le (v : Int) : (fmt_02x v).length ≤ 8 := by
  have hlt : to_uint32 v < 16 ^ 8 := by
    have := to_uint32_lt v
    omega
  have hd : (Nat.toDigits 16 (to_uint32 v)).length ≤ 8 :=
    Nat.toDigitsCore_length 16 (by decide) _ _ 8 hlt (by decide)
  unfold fmt_02x
  simp only [String.length, List.length_append, List.length_replicate]
  omega

theorem hex_literal_eq (rt : runtime) (data : String) (len i : Nat) :
    hex_literal rt data len i =
      "0x" ++ fmt_02x (byte_value rt data i) ++ (if i + 1 ≠ len then ", " else " \x7d;\n") := by
  have hl := fmt_02x_length_le (byte_value rt data i)
  unfold hex_literal
  split
  · apply sx_snprintf_of_length_le
    simp only [String.length_append]
    have h1 : ("0x" : String).length = 2 := rfl
    have h2 : (", " : String).length = 2 := rfl
    omega
  · apply sx_snprintf_of_length_le
    simp only [String.length_append]
    have h1 : ("0x" : String).length = 2 := rfl
    have h2 : (" \x7d;\n" : String).length = 4 := rfl
    omega

theorem join_cons (s : String) (ss : List String) : String.join (s :: ss) = s ++ String.join ss := by
  apply String.ext
  simp [String.data_join]

theorem join_append (a b : List String) :
    String.join (a ++ b) = String.join a ++ String.join b := by
  induction a with
  | nil =>
    apply String.ext
    simp [String.data_join]
  | cons s rest ih => rw [List.cons_append, join_cons, join_cons, ih, String.append_assoc]

theorem join_flatMap (f : Nat → List String) (l : List Nat) :
    String.join (l.flatMap f) = String.join (l.map (fun i => String.join (f i))) := by
  induction l with
  | nil => rfl
  | cons i rest ih => rw [List.flatMap_cons, join_append, List.map_cons, join_cons, ih]

theorem join_nil : String.join [] = "" := rfl

theorem join_singleton (s : String) : String.join [s] = s := by
  rw [join_cons, join_nil, String.append_empty]

theorem join_hex_chunk (rt : runtime) (data : String) (len i : Nat) :
    String.join (hex_chunk rt data len i) =
      "0x" ++ fmt_02x (byte_value rt data i) ++ (if i + 1 ≠ len then ", " else " \x7d;\n") ++
        (if (i + 1) % 16 = 0 then "\n\t" else "") := by
  unfold hex_chunk
  rw [join_cons, hex_literal_eq]
  by_cases h16 : (i + 1) % 16 = 0
  · rw [if_pos h16, if_pos h16, join_singleton]
  · rw [if_neg h16, if_neg h16, join_nil]

theorem join_hex_chunks (rt : runtime) (data : String) (len : Nat) :
    String.join (hex_chunks rt data len) =
      array_body rt data len ++ (if 0 < len ∧ len % 16 = 0 then "\n\t" else "") := by
  cases len with
  | zero => rfl
  | succ n =>
    unfold hex_chunks array_body
    rw [join_flatMap, List.range_succ, List.map_append, List.map_append, join_append, join_append]
    have hfront : (List.range n).map (fun i => String.join (hex_chunk rt data (n + 1) i)) =
        (List.range n).map (fun i =>
          "0x" ++ fmt_02x (byte_value rt data i) ++
            (if i + 1 = n + 1 then " \x7d;\n" else if (i + 1) % 16 = 0 then ", \n\t" else ", ")) := by
      apply List.map_congr_left
      intro i hi
      have hlt : i < n := List.mem_range.mp hi
      have hne : i + 1 ≠ n + 1 := by omega
      rw [join_hex_chunk, if_pos hne, if_neg hne, String.append_assoc]
      congr 1
      split <;> rfl
    rw [hfront, String.append_assoc]
    congr 1
    simp only [List.map_cons, List.map_nil, join_singleton, join_hex_chunk]
    have hpos : 0 < n + 1 := by omega
    by_cases h16 : (n + 1) % 16 = 0
    · simp [h16]
    · simp [h16]

/-- Layout of everything `write_file` writes for a named array of `len` bytes:
the header comment exactly when the write is not an append, the declaration
opener, the `len` literals in data order with their separators, sixteen to a
line, the closing brace with its line feed, and a last line feed, which a line
break and a tab precede when `len` is a multiple of 16. -/
theorem write_file_array_layout (rt : runtime) (filepath data name : String) (append : Bool)
    (binary_size : Int) (hname : name ≠ "") (hopen : rt.sx_file_open_writer filepath = true)
    (hlen : write_file_len data binary_size ≤ data.length + 1) :
    write_file rt filepath data (some name) append binary_size =
      .ok (true, [.write filepath append
        ((if append then "" else file_header) ++
          array_decl name (write_file_len data binary_size) ++
          array_body rt data (write_file_len data binary_size) ++
          (if write_file_len data binary_size % 16 = 0 then "\n\t\n" else "\n"))]) := by
  rw [write_file_cvar rt filepath data name append binary_size hname hopen hlen, join_hex_chunks]
  have hpos : 0 < write_file_len data binary_size := by
    unfold write_file_len
    split <;> omega
  congr 4
  by_cases h16 : write_file_len data binary_size % 16 = 0
  · simp only [h16, hpos, and_self, if_true, String.append_assoc]
    rfl
  · simp only [h16, and_false, if_false, String.append_assoc]
    congr 2

/-- A value below 256 is formatted by `%02x` as its two hexadecimal digits. -/
theorem fmt_02x_byte (b : Nat) (h : b < 256) :
    fmt_02x (b : Int) = String.mk [Nat.digitChar (b / 16), Nat.digitChar (b % 16)] := by
  interval_cases b <;> rfl

/-- The negative value of a byte from 128 on, as a signed `char` is promoted,
is formatted by `%02x` as six digits `f` and the two hexadecimal digits of the
byte. -/
theorem fmt_02x_negative_byte (b : Nat) (h1 : 128 ≤ b) (h2 : b < 256) :
    fmt_02x ((b : Int) - 256) =
      String.mk (List.replicate 6 'f' ++ [Nat.digitChar (b / 16), Nat.digitChar (b % 16)]) := by
  interval_cases b <;> rfl

/-! ## Records emitted by `output_resource_info` -/

theorem output_resource_skipped (compiler : Compiler) (res : Resource) (res_type : resource_type)
    (h : (decide (res_type = .RES_TYPE_SSBO) && compiler.buffer_is_hlsl_counter_buffer res.id) =
      true) :
    output_resource compiler res res_type = .ok none := by
  have h2 : res_type = .RES_TYPE_SSBO ∧ compiler.buffer_is_hlsl_counter_buffer res.id = true := by
    simpa using h
  unfold output_resource
  rw [if_pos h2]
  rfl

theorem output_resource_not_skipped (compiler : Compiler) (res : Resource)
    (res_type : resource_type)
    (h : (decide (res_type = .RES_TYPE_SSBO) && compiler.buffer_is_hlsl_counter_buffer res.id) =
      false) (r : Option sjson_object)
    (hr : output_resource compiler res res_type = .ok r) : ∃ jres, r = some jres := by
  have h2 : ¬ (res_type = .RES_TYPE_SSBO ∧
      compiler.buffer_is_hlsl_counter_buffer res.id = true) := by
    intro hc
    simp [hc.1, hc.2] at h
  unfold output_resource at hr
  rw [if_neg h2] at hr
  cases hs : record_semantic res_type (loc compiler res res_type) with
  | error e => rw [hs] at hr; cases hr
  | ok semantic =>
    rw [hs] at hr
    injection hr with hr
    exact ⟨_, hr.symm⟩

/-- The records `output_resource_info` appends are, in order, the records of
the loop body for the resources that are not skipped. -/
theorem output_resource_info_records (compiler : Compiler) (res_type : resource_type) :
    ∀ (ress : List Resource) (records : List sjson_object),
      output_resource_info compiler ress res_type = .ok records →
      List.Forall₂ (fun res jres => output_resource compiler res res_type = .ok (some jres))
        (emitted_resources compiler ress res_type) records := by
  intro ress
  induction ress with
  | nil =>
    intro records h
    injection h with h
    subst h
    exact List.Forall₂.nil
  | cons res rest ih =>
    intro records h
    simp only [output_resource_info, bind, Except.bind] at h
    cases h1 : output_resource compiler res res_type with
    | error e => rw [h1] at h; cases h
    | ok r =>
      rw [h1] at h
      cases h2 : output_resource_info compiler rest res_type with
      | error e => rw [h2] at h; cases h
      | ok rs =>
        rw [h2] at h
        have hrest := ih rs h2
        injection h with h
        subst h
        cases hskip : (decide (res_type = .RES_TYPE_SSBO) &&
            compiler.buffer_is_hlsl_counter_buffer res.id) with
        | true =>
          have hnone := output_resource_skipped compiler res res_type hskip
          rw [hnone] at h1
          injection h1 with h1
          subst h1
          simp only [emitted_resources, List.filter, hskip, Bool.not_true]
          exact hrest
        | false =>
          obtain ⟨jres, rfl⟩ := output_resource_not_skipped compiler res res_type hskip r h1
          simp only [emitted_resources, List.filter, hskip, Bool.not_false]
          exact List.Forall₂.cons h1 hrest

/-- The function `output_resource_info` has a result whenever no resource of
the list is a vertex input with a location outside the semantic tables. -/
theorem output_resource_info_defined (compiler : Compiler) (res_type : resource_type) :
    ∀ (ress : List Resource),
      (∀ res ∈ ress, res_type ≠ .RES_TYPE_VERTEX_INPUT ∨ loc compiler res res_type = -1 ∨
        (0 ≤ loc compiler res res_type ∧ loc compiler res res_type < 18)) →
      ∃ records, output_resource_info compiler ress res_type = .ok records := by
  intro ress
  induction ress with
  | nil => intro _; exact ⟨[], rfl⟩
  | cons res rest ih =>
    intro hall
    obtain ⟨rs, hrs⟩ := ih (fun r hr => hall r (List.mem_cons_of_mem _ hr))
    have hres := hall res (List.mem_cons_self _ _)
    cases hskip : (decide (res_type = .RES_TYPE_SSBO) &&
        compiler.buffer_is_hlsl_counter_buffer res.id) with
    | true =>
      have hnone := output_resource_skipped compiler res res_type hskip
      exact ⟨rs, by simp [output_resource_info, hnone, hrs, bind, Except.bind, pure, Except.pure]⟩
    | false =>
      have h2 : ¬ (res_type = .RES_TYPE_SSBO ∧
          compiler.buffer_is_hlsl_counter_buffer res.id = true) := by
        intro hc
        simp [hc.1, hc.2] at hskip
      obtain ⟨jres, hj⟩ := output_resource_emits compiler res res_type h2 hres
      exact ⟨jres :: rs,
        by simp [output_resource_info, hj, hrs, bind, Except.bind, pure, Except.pure]⟩

theorem emitted_resources_of_not_ssbo (compiler : Compiler) (ress : List Resource)
    (res_type : resource_type) (h : res_type ≠ .RES_TYPE_SSBO) :
    emitted_resources compiler ress res_type = ress := by
  unfold emitted_resources
  rw [List.filter_eq_self]
  intro res _
  simp [h]

/-- C2. For every list of resources passed to `output_resource_info` the call
has a result whenever no resource is a vertex input with a location outside the
semantic tables, and the records of a result stand, in list order, for the
resources that are not skipped as counter buffers (all of them outside the
storage-buffer category). The `name` member of each record is the resource's
own name when that name is non-empty, the fallback name of the base type id
when the name is empty, the type is decorated Block or BufferBlock and the
storage class is not PushConstant, and the fallback name of the resource's own
id otherwise. -/
theorem output_resource_info_name (compiler : Compiler) (ress : List Resource)
    (res_type : resource_type) :
    ((∀ res ∈ ress, res_type ≠ .RES_TYPE_VERTEX_INPUT ∨ loc compiler res res_type = -1 ∨
        (0 ≤ loc compiler res res_type ∧ loc compiler res res_type < 18)) →
      ∃ records, output_resource_info compiler ress res_type = .ok records) ∧
    (res_type ≠ .RES_TYPE_SSBO → emitted_resources compiler ress res_type = ress) ∧
    (∀ records, output_resource_info compiler ress res_type = .ok records →
      List.Forall₂ (fun res jres =>
        sjson_find jres "name" = some (.string
          (if res.name ≠ "" then res.name
           else if (compiler.get_decoration_bitset (compiler.get_type res.type_id).self
                      DecorationBlock = true ∨
                    compiler.get_decoration_bitset (compiler.get_type res.type_id).self
                      DecorationBufferBlock = true) ∧
                   compiler.get_storage_class res.id ≠ StorageClassPushConstant
             then compiler.get_fallback_name res.base_type_id
             else compiler.get_fallback_name res.id)))
        (emitted_resources compiler ress res_type) records) :=
  ⟨output_resource_info_defined compiler res_type ress,
    emitted_resources_of_not_ssbo compiler ress res_type,
    fun records h =>
      List.Forall₂.imp (fun res jres hj => (output_resource_name compiler res res_type).2 jres hj)
        (output_resource_info_records compiler res_type ress records h)⟩

/-- C2 (witness). The list holding the unnamed uniform block of `compiler_ubo`
yields one record, under the fallback name of the block's base type id. -/
theorem output_resource_info_name_witness :
    (∃ records, output_resource_info compiler_ubo [res_ubo] .RES_TYPE_REGULAR = .ok records) ∧
    output_resource_info compiler_ubo [res_ubo] .RES_TYPE_REGULAR = .ok [record_ubo] ∧
    sjson_find record_ubo "name" = some (.string "_20") :=
  ⟨(output_resource_info_name compiler_ubo [res_ubo] .RES_TYPE_REGULAR).1
      (fun _ _ => Or.inl (by decide)),
    rfl,
    (List.forall₂_cons.mp
      ((output_resource_info_name compiler_ubo [res_ubo] .RES_TYPE_REGULAR).2.2
        [record_ubo] rfl)).1.trans (by decide)⟩

/-- C3. For every list of resources passed to `output_resource_info` the call
has a result whenever no resource is a vertex input with a location outside the
semantic tables, and the records of a result stand, in list order, for the
resources that are not skipped as counter buffers. In each record the member
`block_size` is present exactly when the resource's type is decorated Block or
BufferBlock and its storage class is Uniform or UniformConstant; outside of
that case neither `block_size` nor `unsized_array_stride` is present; when
present, `block_size` is the declared struct size of the base type as stored
by the code (cast to `uint32_t`, put as `int`), which is the declared size
itself whenever that size is below `2^31`. -/
theorem output_resource_info_block_size (compiler : Compiler) (ress : List Resource)
    (res_type : resource_type) :
    ((∀ res ∈ ress, res_type ≠ .RES_TYPE_VERTEX_INPUT ∨ loc compiler res res_type = -1 ∨
        (0 ≤ loc compiler res res_type ∧ loc compiler res res_type < 18)) →
      ∃ records, output_resource_info compiler ress res_type = .ok records) ∧
    (∀ records, output_resource_info compiler ress res_type = .ok records →
      List.Forall₂ (fun res jres =>
        ((sjson_find jres "block_size").isSome = true ↔
          ((compiler.get_decoration_bitset (compiler.get_type res.type_id).self
              DecorationBlock = true ∨
            compiler.get_decoration_bitset (compiler.get_type res.type_id).self
              DecorationBufferBlock = true) ∧
           (compiler.get_storage_class res.id = StorageClassUniform ∨
            compiler.get_storage_class res.id = StorageClassUniformConstant))) ∧
        ((sjson_find jres "block_size").isSome = false →
          sjson_find jres "unsized_array_stride" = none) ∧
        ((sjson_find jres "block_size").isSome = true →
          sjson_find jres "block_size" = some (.int (to_int (to_uint32
            (compiler.get_declared_struct_size (compiler.get_type res.base_type_id)))))) ∧
        ((sjson_find jres "block_size").isSome = true →
          compiler.get_declared_struct_size (compiler.get_type res.base_type_id) < 2 ^ 31 →
          sjson_find jres "block_size" = some (.int
            (compiler.get_declared_struct_size (compiler.get_type res.base_type_id)))))
        (emitted_resources compiler ress res_type) records) :=
  ⟨output_resource_info_defined compiler res_type ress,
    fun records h =>
      List.Forall₂.imp
        (fun res jres hj => output_resource_block_size compiler res res_type jres hj)
        (output_resource_info_records compiler res_type ress records h)⟩

/-- C3 (witness). The list holding the uniform block of `compiler_ubo` yields
one record, and it carries `block_size = 64`. -/
theorem output_resource_info_block_size_witness :
    (∃ records, output_resource_info compiler_ubo [res_ubo] .RES_TYPE_REGULAR = .ok records) ∧
    output_resource_info compiler_ubo [res_ubo] .RES_TYPE_REGULAR = .ok [record_ubo] ∧
    sjson_find record_ubo "block_size" = some (.int 64) :=
  ⟨(output_resource_info_block_size compiler_ubo [res_ubo] .RES_TYPE_REGULAR).1
      (fun _ _ => Or.inl (by decide)),
    rfl,
    ((List.forall₂_cons.mp
      ((output_resource_info_block_size compiler_ubo [res_ubo] .RES_TYPE_REGULAR).2
        [record_ubo] rfl)).1.2.2.2 (by decide) (by decide)).trans (by decide)⟩

/-- C15. For every list of resources passed to `output_resource_info` and every
category the call has a result whenever no resource is a vertex input with a
location outside the semantic tables, and the records of a result stand, in
list order, for the resources that are not skipped as counter buffers. In each
record an optional member is present exactly when its decoration bit is set in
the mask of the resource: `location` with Location, `set` with DescriptorSet,
`binding` with Binding, `attachment` with InputAttachmentIndex, `writeonly`
with NonReadable, `readonly` with NonWritable; the mask is the buffer-block
flags of the resource for the storage-buffer category and its decoration
bitset for every other category. -/
theorem output_resource_info_decorations (compiler : Compiler) (ress : List Resource)
    (res_type : resource_type) :
    ((∀ res ∈ ress, res_type ≠ .RES_TYPE_VERTEX_INPUT ∨ loc compiler res res_type = -1 ∨
        (0 ≤ loc compiler res res_type ∧ loc compiler res res_type < 18)) →
      ∃ records, output_resource_info compiler ress res_type = .ok records) ∧
    (∀ records, output_resource_info compiler ress res_type = .ok records →
      List.Forall₂ (fun res jres =>
        ∀ m : Nat → Bool,
          m = (if res_type = .RES_TYPE_SSBO then compiler.get_buffer_block_flags res.id
               else compiler.get_decoration_bitset res.id) →
          (sjson_find jres "location").isSome = m DecorationLocation ∧
          (sjson_find jres "set").isSome = m DecorationDescriptorSet ∧
          (sjson_find jres "binding").isSome = m DecorationBinding ∧
          (sjson_find jres "attachment").isSome = m DecorationInputAttachmentIndex ∧
          (sjson_find jres "writeonly").isSome = m DecorationNonReadable ∧
          (sjson_find jres "readonly").isSome = m DecorationNonWritable)
        (emitted_resources compiler ress res_type) records) :=
  ⟨output_resource_info_defined compiler res_type ress,
    fun records h =>
      List.Forall₂.imp
        (fun res jres hj m hm => output_resource_decorations compiler res res_type jres m hj hm)
        (output_resource_info_records compiler res_type ress records h)⟩

/-- C15 (witness). The list holding the sampler array of `compiler_tex`, which
carries the bits DescriptorSet and Binding, yields one record, with `set` and
`binding` and none of the four other optional members. -/
theorem output_resource_info_decorations_witness :
    (∃ records, output_resource_info compiler_tex [res_tex] .RES_TYPE_REGULAR = .ok records) ∧
    output_resource_info compiler_tex [res_tex] .RES_TYPE_REGULAR = .ok [record_tex] ∧
    (sjson_find record_tex "location").isSome = false ∧
    (sjson_find record_tex "set").isSome = true ∧
    (sjson_find record_tex "binding").isSome = true ∧
    (sjson_find record_tex "attachment").isSome = false ∧
    (sjson_find record_tex "writeonly").isSome = false ∧
    (sjson_find record_tex "readonly").isSome = false :=
  ⟨(output_resource_info_decorations compiler_tex [res_tex] .RES_TYPE_REGULAR).1
      (fun _ _ => Or.inl (by decide)),
    rfl,
    (List.forall₂_cons.mp
      ((output_resource_info_decorations compiler_tex [res_tex] .RES_TYPE_REGULAR).2
        [record_tex] rfl)).1 (compiler_tex.get_decoration_bitset res_tex.id) rfl⟩

/-- C16. For every list of resources passed to `output_resource_info` the call
has a result whenever no resource is a vertex input with a location outside the
semantic tables, and the records of a result stand, in list order, for the
resources that are not skipped as counter buffers. In each record the member
`array` is present exactly when the type of the resource has at least one
array dimension; its value is then the sum of the extents as the code adds
them up (in 32-bit arithmetic, put as `int`), which is the sum itself whenever
that is below `2^31`; the dimensions `[2, 3]` give 5. -/
theorem output_resource_info_array (compiler : Compiler) (ress : List Resource)
    (res_type : resource_type) :
    ((∀ res ∈ ress, res_type ≠ .RES_TYPE_VERTEX_INPUT ∨ loc compiler res res_type = -1 ∨
        (0 ≤ loc compiler res res_type ∧ loc compiler res res_type < 18)) →
      ∃ records, output_resource_info compiler ress res_type = .ok records) ∧
    (∀ records, output_resource_info compiler ress res_type = .ok records →
      List.Forall₂ (fun res jres =>
        ((sjson_find jres "array").isSome = true ↔ (compiler.get_type res.type_id).array ≠ []) ∧
        ((compiler.get_type res.type_id).array ≠ [] →
          sjson_find jres "array" =
            some (.int (to_int (compiler.get_type res.type_id).array.sum))) ∧
        ((compiler.get_type res.type_id).array ≠ [] →
          (compiler.get_type res.type_id).array.sum < 2 ^ 31 →
          sjson_find jres "array" =
            some (.int ((compiler.get_type res.type_id).array.sum : Nat))))
        (emitted_resources compiler ress res_type) records) ∧
    to_int ([2, 3] : List Nat).sum = 5 :=
  ⟨output_resource_info_defined compiler res_type ress,
    fun records h =>
      List.Forall₂.imp
        (fun res jres hj =>
          ⟨(output_resource_array compiler res res_type jres hj).1,
            (output_resource_array compiler res res_type jres hj).2.1,
            (output_resource_array compiler res res_type jres hj).2.2.1⟩)
        (output_resource_info_records compiler res_type ress records h),
    by decide⟩

/-- C16 (witness). The list holding the sampler array with dimensions `[2, 3]`
yields one record, with `array = 5`. -/
theorem output_resource_info_array_witness :
    (∃ records, output_resource_info compiler_tex [res_tex] .RES_TYPE_REGULAR = .ok records) ∧
    output_resource_info compiler_tex [res_tex] .RES_TYPE_REGULAR = .ok [record_tex] ∧
    sjson_find record_tex "array" = some (.int 5) :=
  ⟨(output_resource_info_array compiler_tex [res_tex] .RES_TYPE_REGULAR).1
      (fun _ _ => Or.inl (by decide)),
    rfl,
    ((List.forall₂_cons.mp
      ((output_resource_info_array compiler_tex [res_tex] .RES_TYPE_REGULAR).2.1
        [record_tex] rfl)).1.2.2 (by decide) (by decide)).trans rfl⟩


/-! ## The declaration opener and the size of `var[128]` -/

set_option maxRecDepth 16384 in
/-- C4 (failing input). For the 100-character variable name `long_name` the
declaration opener has 136 characters and is cut to the 127 that fit
`var[128]`: the text written goes from the name straight to the literals, and
neither the length 3 for the text `ab` nor the explicit binary length 2 is
declared. -/
theorem write_file_long_name_drops_length :
    long_name.length = 100 ∧
    ("static const unsigned char " ++ long_name ++ "[" ++ toString 3 ++ "] = \x7b\n\t").length =
      136 ∧
    array_decl long_name 3 = "static const unsigned char " ++ long_name ∧
    write_file rt_plain "out.h" "ab" (some long_name) true (-1) =
      .ok (true, [.write "out.h" true
        ("static const unsigned char " ++ long_name ++ "0x61, 0x62, 0x00 \x7d;\n\n")]) ∧
    write_file rt_plain "out.h" "ab" (some long_name) true 2 =
      .ok (true, [.write "out.h" true
        ("static const unsigned char " ++ long_name ++ "0x61, 0x62 \x7d;\n\n")]) :=
  ⟨rfl, by decide, rfl, rfl, rfl⟩

set_option maxRecDepth 16384 in
/-- C6 (failing input). With the 100-character base name `long_name` the
variable names are `long_name ++ "_vs"` and `long_name ++ "_fs"`, but the
declaration opener is cut to the 127 characters that fit `var[128]`: both
stages write `static const unsigned char ` and the bare base name, without
stage suffix, length and opening brace, straight before the literals. -/
theorem cross_compile_long_cvar_drops_suffix :
    cvar_code args_cvar_long .EShLangVertex = long_name ++ "_vs" ∧
    cvar_code args_cvar_long .EShLangFragment = long_name ++ "_fs" ∧
    cross_compile rt_plain tc_plain none args_cvar_long .EShLangVertex 0 =
      .ok { ret := 0, g_sgs := none,
            events := [.write "basic.h" false
              (file_header ++ "static const unsigned char " ++ long_name ++
                "0x76, 0x73, 0x00 \x7d;\n\n")] } ∧
    cross_compile rt_plain tc_plain none args_cvar_long .EShLangFragment 1 =
      .ok { ret := 0, g_sgs := none,
            events := [.write "basic.h" true
              ("static const unsigned char " ++ long_name ++ "0x66, 0x73, 0x00 \x7d;\n\n")] } :=
  ⟨rfl, rfl, rfl, rfl⟩

theorem cross_compile_cvar_reflect_events (rt : runtime) (tc : toolchain) (args : cmd_args)
    (stage : EShLanguage) (i : Nat) (out : backend_output) (B path : String)
    (doc : reflect_document)
    (hlang : args.lang ≠ .SHADER_LANG_COUNT)
    (hcompile : tc.compile args stage = .ok out)
    (hcvar : args.cvar = some B) (hB : B ≠ "")
    (hpath : args.out_filepath = some path)
    (hopen : rt.sx_file_open_writer path = true)
    (hrefl : args.reflect ≠ 0)
    (hdoc : output_reflection args out.compiler out.ress path stage = .ok doc) :
    (args.reflect_filepath = none →
      cross_compile rt tc none args stage (i : Int) =
        .ok { ret := 0, g_sgs := none,
              events := [
                .write path (decide (0 < i))
                  (array_text rt (B ++ "_" ++ get_stage_name stage) out.code (decide (0 < i))),
                .write path true
                  (array_text rt (B ++ "_" ++ get_stage_name stage ++ "_refl")
                    (rt.sjson_encode doc) true)] }) ∧
    (∀ P, args.reflect_filepath = some P → rt.sx_file_open_writer P = true →
      cross_compile rt tc none args stage (i : Int) =
        .ok { ret := 0, g_sgs := none,
              events := [
                .write path (decide (0 < i))
                  (array_text rt (B ++ "_" ++ get_stage_name stage) out.code (decide (0 < i))),
                .write P (decide (0 < i))
                  (array_text rt (B ++ "_" ++ get_stage_name stage ++ "_refl")
                    (rt.sjson_encode doc) (decide (0 < i)))] }) := by
  have hBe : B.isEmpty = false := isEmpty_eq_false_of_ne B hB
  have hne := stage_suffix_ne_empty B stage
  have hce : (B ++ "_" ++ get_stage_name stage).isEmpty = false := isEmpty_eq_false_of_ne _ hne
  have hcc : cvar_code args stage = B ++ "_" ++ get_stage_name stage := by
    simp [cvar_code, hcvar, hBe]
  have hfp : code_filepath rt args stage = .ok path := by
    simp [code_filepath, hpath, deref, hcvar, hBe]
    rfl
  have hdec : (decide ((i : Int) > 0)) = decide (0 < i) := by
    by_cases h : 0 < i <;> simp [h]
  have hw1 := write_file_array_text rt path out.code (B ++ "_" ++ get_stage_name stage)
    (decide (0 < i)) hne hopen
  have hstart : cross_compile rt tc none args stage (i : Int) =
      cross_compile_files rt args out stage (i : Int) := by
    simp [cross_compile, hlang, hcompile]
  have hrne := refl_suffix_ne_empty (B ++ "_" ++ get_stage_name stage)
  constructor
  · intro hnone
    have hw2 := write_file_array_text rt path (rt.sjson_encode doc)
      (B ++ "_" ++ get_stage_name stage ++ "_refl") true hrne hopen
    rw [hstart]
    simp only [cross_compile_files, hcc, hfp, hce, hdec, Bool.not_false, Bool.true_and, hw1,
      hrefl, hdoc, hnone, hw2, bind, Except.bind, pure, Except.pure]
    simp [hrefl, hw2]
  · intro P hP hopenP
    have hw2 := write_file_array_text rt P (rt.sjson_encode doc)
      (B ++ "_" ++ get_stage_name stage ++ "_refl") (decide (0 < i)) hrne hopenP
    rw [hstart]
    simp only [cross_compile_files, hcc, hfp, hce, hdec, Bool.not_false, Bool.true_and, hw1,
      hrefl, hdoc, hP, hw2, bind, Except.bind, pure, Except.pure]
    simp [hrefl, hw2]

theorem array_text_of_fit (rt : runtime) (name data : String) (append : Bool)
    (hfit : ("static const unsigned char " ++ name ++ "[" ++ toString (sx_strlen data + 1) ++
      "] = \x7b\n\t").length ≤ 127) :
    array_text rt name data append =
      (if append then "" else file_header) ++
        ("static const unsigned char " ++ name ++ "[" ++ toString (sx_strlen data + 1) ++
          "] = \x7b\n\t") ++
        String.join (hex_chunks rt data (sx_strlen data + 1)) ++ "\n" := by
  unfold array_text array_decl
  rw [sx_snprintf_of_length_le 128 _ hfit]

/-- C11 (amended). In byte-array mode with base name `B`, reflection requested,
a successful backend run, writable paths and a declaration opener of the
reflection array that fits the 127 characters of `var[128]`, the reflection
JSON of a stage is written right after the code array, as an array opened by
`static const unsigned char B_<stage>_refl[<length>] = {` with the length of
the JSON text plus its terminator. Without an explicit reflection path it goes
to the configured output path, the file of the code array, by an appending
write. With an explicit reflection path `P` it goes to `P`, by a truncating
write (header comment first) at stage index 0 and an appending write at later
indexes. The first event is the write of the code array `B_<stage>`, whose
text `array_text` gives. -/
theorem cross_compile_cvar_reflection (rt : runtime) (tc : toolchain) (args : cmd_args)
    (stage : EShLanguage) (i : Nat) (out : backend_output) (B path : String)
    (doc : reflect_document)
    (hlang : args.lang ≠ .SHADER_LANG_COUNT)
    (hcompile : tc.compile args stage = .ok out)
    (hcvar : args.cvar = some B) (hB : B ≠ "")
    (hpath : args.out_filepath = some path)
    (hopen : rt.sx_file_open_writer path = true)
    (hrefl : args.reflect ≠ 0)
    (hdoc : output_reflection args out.compiler out.ress path stage = .ok doc)
    (hfit : ("static const unsigned char " ++ (B ++ "_" ++ get_stage_name stage ++ "_refl") ++
      "[" ++ toString (sx_strlen (rt.sjson_encode doc) + 1) ++ "] = \x7b\n\t").length ≤ 127) :
    (args.reflect_filepath = none →
      cross_compile rt tc none args stage (i : Int) =
        .ok { ret := 0, g_sgs := none,
              events := [
                .write path (decide (0 < i))
                  (array_text rt (B ++ "_" ++ get_stage_name stage) out.code (decide (0 < i))),
                .write path true
                  ("static const unsigned char " ++
                    (B ++ "_" ++ get_stage_name stage ++ "_refl") ++
                    "[" ++ toString (sx_strlen (rt.sjson_encode doc) + 1) ++ "] = \x7b\n\t" ++
                    String.join (hex_chunks rt (rt.sjson_encode doc)
                      (sx_strlen (rt.sjson_encode doc) + 1)) ++ "\n")] }) ∧
    (∀ P, args.reflect_filepath = some P → rt.sx_file_open_writer P = true →
      cross_compile rt tc none args stage (i : Int) =
        .ok { ret := 0, g_sgs := none,
              events := [
                .write path (decide (0 < i))
                  (array_text rt (B ++ "_" ++ get_stage_name stage) out.code (decide (0 < i))),
                .write P (decide (0 < i))
                  ((if 0 < i then "" else file_header) ++
                    ("static const unsigned char " ++
                      (B ++ "_" ++ get_stage_name stage ++ "_refl") ++
                      "[" ++ toString (sx_strlen (rt.sjson_encode doc) + 1) ++ "] = \x7b\n\t") ++
                    String.join (hex_chunks rt (rt.sjson_encode doc)
                      (sx_strlen (rt.sjson_encode doc) + 1)) ++ "\n")] }) := by
  have hev := cross_compile_cvar_reflect_events rt tc args stage i out B path doc hlang hcompile
    hcvar hB hpath hopen hrefl hdoc
  constructor
  · intro hnone
    rw [hev.1 hnone, array_text_of_fit rt _ (rt.sjson_encode doc) true hfit]
    simp
  · intro P hP hopenP
    rw [hev.2 P hP hopenP, array_text_of_fit rt _ (rt.sjson_encode doc) (decide (0 < i)) hfit]
    by_cases h : 0 < i <;> simp [h]

set_option maxRecDepth 8192 in
/-- C11 (witness). In byte-array mode with `--reflect` given without a path the
vertex stage appends the array `basic_vs_refl` to `basic.h`, the file that
received `basic_vs`. -/
theorem cross_compile_cvar_reflection_witness :
    cross_compile rt_plain tc_plain none args_cvar_reflect .EShLangVertex 0 =
      .ok { ret := 0, g_sgs := none,
            events := [
              .write "basic.h" false
                (file_header ++
                  "static const unsigned char basic_vs[3] = \x7b\n\t0x76, 0x73, 0x00 \x7d;\n\n"),
              .write "basic.h" true
                ("static const unsigned char basic_vs_refl[13] = \x7b\n\t" ++
                  "0x7b, 0x76, 0x73, 0x3a, 0x62, 0x61, 0x73, 0x69, 0x63, 0x2e, 0x68, 0x7d, " ++
                  "0x00 \x7d;\n\n")] } :=
  ((cross_compile_cvar_reflection rt_plain tc_plain args_cvar_reflect .EShLangVertex 0
    { compiler := compiler_empty, ress := ress_empty, code := "vs" } "basic" "basic.h"
    { language := "gles", profile_version := 0, stage_name := "vs", file := "basic.h",
      groups := [] }
    (by decide) rfl rfl (by decide) rfl rfl (by decide) rfl (by decide)).1 rfl).trans rfl


end Glslcc
